import Mathlib

/-!
Shallow embedding of the Demonbane dungeon core (`LVLSystem.py`): tile grid,
rooms, the level generator, the connectivity builder, the A* pathfinder and
the `DungeonManager` (areas, movement, heat modifiers).

Randomness is modelled by an explicit stream of natural-number draws
(`RS := List Nat`, exhausted streams continue with `0`).  Every call of
Python's `random.randint`, `random.random`, `random.choice`,
`random.randrange` consumes exactly one draw; `random.random()` is modelled
by a draw reduced mod 100 (all probability thresholds in the source are
multiples of 0.01, so the induced branching is exactly the source's).
Fallible operations (`randint` on an empty range raising `ValueError`,
numpy indexing raising `IndexError`, Python list indexing) are modelled by
`Except String`; numpy's negative-index wrap-around is modelled faithfully
because the final-area generator exercises it.  Floating point enters the
source only through `dist = (dx**2+dy**2)**0.5` comparisons against
integers and through A* priorities; we model these comparisons exactly over
the integers (squared distances), which agrees with IEEE doubles at all
realistic grid sizes.  The cosmetic `theme` dictionary (colors / texture
names, consumed by rendering only) is omitted.
-/

/-- Random stream: the pending draws of the shared `random` source. -/
abbrev RS := List Nat

/-- State-and-error monad threading the random stream, with Python
exceptions modelled as `Except.error`. -/
def M (α : Type) : Type := RS → Except String (α × RS)

instance : Monad M where
  pure a := fun s => .ok (a, s)
  bind m f := fun s => match m s with
    | .ok (a, s') => f a s'
    | .error e => .error e

/-- Raise a Python exception. -/
def mthrow {α : Type} (msg : String) : M α := fun _ => .error msg

/-- Take the next raw draw from the stream (an exhausted stream yields 0). -/
def nextNat : M Nat := fun s => .ok (s.headD 0, s.tail)

/-- Model of `random.randint(lo, hi)`: inclusive bounds, `ValueError` when
`hi < lo`.  The draw is reduced into the range, so every stream is valid. -/
def randint (lo hi : Int) : M Int :=
  if hi < lo then mthrow "ValueError: empty range for randint"
  else do
    let n ← nextNat
    pure (lo + (n : Int) % (hi - lo + 1))

/-- Model of `random.random()` for the purpose of the source's threshold
comparisons: a draw in `[0,100)`, where the Python test `random.random() < c`
becomes `r100 < 100*c` (all thresholds in the source are multiples of 0.01). -/
def rand100 : M Nat := do
  let n ← nextNat
  pure (n % 100)

/-- Model of `random.choice(l)`. -/
def randchoice {α : Type} (l : List α) : M α :=
  match l with
  | [] => mthrow "IndexError: choice from empty sequence"
  | x :: xs => do
    let n ← nextNat
    pure ((x :: xs).getD (n % (xs.length + 1)) x)

/-- Model of `random.randrange(n)`. -/
def randrange (n : Nat) : M Nat :=
  if n = 0 then mthrow "ValueError: empty range for randrange"
  else do
    let k ← nextNat
    pure (k % n)

/-- Numpy/Python index resolution on an axis of size `n`: indices in
`[0,n)` are used as-is, indices in `[-n,0)` wrap, others raise. -/
def npIdx (n : Nat) (i : Int) : Option Nat :=
  if 0 ≤ i ∧ i < n then some i.toNat
  else if i < 0 ∧ 0 ≤ i + n then some (i + n).toNat
  else none

/-- Python list read `l[i]` (negative indices wrap, out of range raises). -/
def listGetPy {α : Type} (l : List α) (i : Int) : Except String α :=
  match npIdx l.length i with
  | some k =>
    match l.get? k with
    | some a => .ok a
    | none => .error "IndexError"
  | none => .error "IndexError: list index out of range"

/-- Python list write `l[i] = a` at an index already validated by a
successful read of the same index. -/
def listSetPy {α : Type} (l : List α) (i : Int) (a : α) : List α :=
  match npIdx l.length i with
  | some k => l.set k a
  | none => l

/-- Tile kinds, with the numeric values of the source's `TileType` enum. -/
inductive Tile where
  | wall | floor | door | stairsUp | stairsDown
  | player | boss | chest | trap | special
deriving DecidableEq, Repr, Inhabited

/-- The dungeon grid: a list of rows, each row a list of tiles, mirroring
the numpy array `grid[y][x]`. -/
abbrev Grid := List (List Tile)

/-- Read `grid[y][x]` at a non-negative in-bounds position (every read in
the source is bounds-checked before the access; out-of-range reads default
to `wall`, which no source read path can observe). -/
def gget (g : Grid) (y x : Int) : Tile :=
  if 0 ≤ y ∧ 0 ≤ x then (g.getD y.toNat []).getD x.toNat Tile.wall
  else Tile.wall

/-- Numpy write `grid[y][x] = t`: negative indices wrap once, indices
outside `[-n, n)` raise `IndexError`. -/
def gridSet (g : Grid) (y x : Int) (t : Tile) : Except String Grid :=
  match npIdx g.length y with
  | none => .error "IndexError: row"
  | some yi =>
    let row := g.getD yi []
    match npIdx row.length x with
    | none => .error "IndexError: column"
    | some xi => .ok (g.set yi (row.set xi t))

/-- Enemy spawn record (`{"type":…, "pos":…, "level":…}`). -/
structure Enemy where
  etype : String
  pos : Int × Int
  level : Int
deriving DecidableEq, Repr

/-- Item spawn record (`{"type":…, "pos":…, "level":…}`). -/
structure Item where
  itype : String
  pos : Int × Int
  level : Int
deriving DecidableEq, Repr

/-- Special-feature record (`{"type":…, "pos":…, "area":…}`). -/
structure Feature where
  ftype : String
  pos : Int × Int
  area : Int
deriving DecidableEq, Repr

/-- Interactive object; the source only ever appends doors
(`{"type":"door", "pos":…, "state":"closed"|"open"}`). -/
structure DoorObj where
  pos : Int × Int
  state : String
deriving DecidableEq, Repr

/-- A rectangular room (`class Room`). -/
structure Room where
  x : Int
  y : Int
  width : Int
  height : Int
  room_type : String
  connected : Bool := false
  enemies : List Enemy := []
  items : List Item := []
  features : List Feature := []
deriving DecidableEq, Repr

/-- Center of a room (`Room.center`, Python floor division). -/
def Room.center (r : Room) : Int × Int :=
  (r.x + r.width / 2, r.y + r.height / 2)

/-- Axis-aligned bounding-box overlap with inclusive borders
(`Room.intersects`). -/
def Room.intersects (r other : Room) : Bool :=
  r.x ≤ other.x + other.width && r.x + r.width ≥ other.x &&
  r.y ≤ other.y + other.height && r.y + r.height ≥ other.y

/-- Squared Euclidean distance between two grid points; the source compares
`((dx)**2+(dy)**2)**0.5` with integers, which is equivalent to comparing
this value with their squares. -/
def distSq (p q : Int × Int) : Int :=
  (p.1 - q.1) ^ 2 + (p.2 - q.2) ^ 2

/-- A dungeon level (`class Dungeon`); the cosmetic `theme` is omitted. -/
structure Dungeon where
  width : Int
  height : Int
  player_level : Int
  area_index : Int
  grid : Grid
  rooms : List Room
  entrance : Option (Int × Int)
  exit : Option (Int × Int)
  objects : List DoorObj
  enemies : List Enemy
  items : List Item
deriving DecidableEq, Repr

instance : Inhabited Dungeon :=
  ⟨⟨0, 0, 1, 0, [], [], none, none, [], [], []⟩⟩

/-- Fresh dungeon as built by `Dungeon.__init__` (grid zero-filled = walls). -/
def mkDungeon (width height player_level area_index : Int) : Dungeon where
  width := width
  height := height
  player_level := player_level
  area_index := area_index
  grid := List.replicate height.toNat (List.replicate width.toNat Tile.wall)
  rooms := []
  entrance := none
  exit := none
  objects := []
  enemies := []
  items := []

/-- Heat modifier table entry (`{"name":…, "effect":…, "min_heat":…}`). -/
structure Modifier where
  name : String
  effect : String
  min_heat : Int
deriving DecidableEq, Repr

/-- The area manager (`class DungeonManager`). -/
structure Mgr where
  width : Int
  height : Int
  dungeons : List Dungeon
  current_area : Int
  player_pos : Option (Int × Int)
  player_level : Int
  heat_level : Int
  active_modifiers : List Modifier
deriving DecidableEq, Repr

/-- Interior x/y draw used by every random in-room placement:
`random.randint(lo+1, lo+extent-2)`. -/
def interiorDraw (lo extent : Int) : M Int := randint (lo + 1) (lo + extent - 2)

/-- Loop of `Room.place_enemies` placing `n` normal enemies at random
interior positions. -/
def placeEnemiesLoop (r : Room) (dungeon_level : Int) : Nat → M Room
  | 0 => pure r
  | n + 1 => do
    let x ← interiorDraw r.x r.width
    let y ← interiorDraw r.y r.height
    let dl ← randint (-1) 1
    let r' := { r with enemies := r.enemies ++
      [⟨"normal", (x, y), max 1 (dungeon_level + dl)⟩] }
    placeEnemiesLoop r' dungeon_level n

/-- Model of `Room.place_enemies(dungeon_level, area_index)`. -/
def Room.place_enemies (r : Room) (dungeon_level area_index : Int) : M Room :=
  if r.room_type = "boss" then
    pure { r with enemies := r.enemies ++
      [⟨"boss", r.center, dungeon_level + 2 + area_index⟩] }
  else do
    let room_area := r.width * r.height
    let base_enemies := max 1 (room_area / 25)
    let difficulty_mod := min 3 (max 0 (dungeon_level + area_index / 2))
    let num_enemies ← randint (max 0 (base_enemies - 1)) (base_enemies + difficulty_mod)
    placeEnemiesLoop r dungeon_level num_enemies.toNat

/-- Model of `Room.place_items(dungeon_level)`. -/
def Room.place_items (r : Room) (dungeon_level : Int) : M Room := do
  let item_chance : Nat :=
    if r.room_type = "boss" then 100
    else if r.room_type = "special" then 60
    else 30
  let roll ← rand100
  if roll < item_chance then do
    let x ← interiorDraw r.x r.width
    let y ← interiorDraw r.y r.height
    let rarity_roll ← rand100
    let item_type : String :=
      if rarity_roll < 60 then "common"
      else if rarity_roll < 85 then "uncommon"
      else if rarity_roll < 95 then "rare"
      else if rarity_roll < 99 then "epic"
      else "legendary"
    pure { r with items := r.items ++ [⟨item_type, (x, y), dungeon_level⟩] }
  else
    pure r

/-- Model of `Room.add_special_feature(area_index)` (no-op unless the room
is special). -/
def Room.add_special_feature (r : Room) (area_index : Int) : M Room :=
  if r.room_type = "special" then do
    let feature_type ← randchoice ["altar", "shrine", "fountain", "statue", "library"]
    pure { r with features := r.features ++ [⟨feature_type, r.center, area_index⟩] }
  else
    pure r

/-- Python `range(a, b)` as a list of `Int`. -/
def intRange (a b : Int) : List Int :=
  (List.range (b - a).toNat).map (fun k => a + (k : Int))

/-- Write a whole row segment `grid[y][x] = t for x in range(x0, x0+w)`
with numpy semantics. -/
def fillRow (g : Grid) (y : Int) (xs : List Int) (t : Tile) : Except String Grid :=
  match xs with
  | [] => .ok g
  | x :: rest =>
    match gridSet g y x t with
    | .ok g' => fillRow g' y rest t
    | .error e => .error e

/-- Unguarded rectangle carve used by `Dungeon._add_room`
(`for room_y in range(y, y+height): for room_x …: grid[…] = FLOOR`). -/
def fillRect (g : Grid) (x y w h : Int) (t : Tile) : Except String Grid :=
  match intRange y (y + h) with
  | ys => fillRectRows g ys x w t
where
  /-- one row after another -/
  fillRectRows (g : Grid) (ys : List Int) (x w : Int) (t : Tile) : Except String Grid :=
    match ys with
    | [] => .ok g
    | ry :: rest =>
      match fillRow g ry (intRange x (x + w)) t with
      | .ok g' => fillRectRows g' rest x w t
      | .error e => .error e

/-- Bounds-guarded rectangle carve used by `Dungeon._generate_final_area`
(`if 0 <= x < self.width and 0 <= y < self.height`). -/
def fillRectGuarded (g : Grid) (gw gh : Int) (x y w h : Int) (t : Tile) : Grid :=
  (intRange y (y + h)).foldl (fun acc ry =>
    (intRange x (x + w)).foldl (fun acc2 rx =>
      if 0 ≤ rx ∧ rx < gw ∧ 0 ≤ ry ∧ ry < gh then
        match gridSet acc2 ry rx t with
        | .ok g' => g'
        | .error _ => acc2
      else acc2) acc) g

instance : Inhabited Room := ⟨{ x := 0, y := 0, width := 0, height := 0, room_type := "" }⟩

instance : Inhabited Enemy := ⟨⟨"", (0, 0), 0⟩⟩

instance : Inhabited Item := ⟨⟨"", (0, 0), 0⟩⟩

instance : Inhabited DoorObj := ⟨⟨(0, 0), ""⟩⟩

/-- Lift a fallible pure computation into `M`. -/
def liftE {α : Type} (e : Except String α) : M α := fun s => e.map (·, s)

/-- Rejection test of the placement attempt in `Dungeon._add_room`:
the candidate is discarded when some existing room intersects it or (for a
positive `min_distance`) has a center closer than `min_distance`.  The
source's float comparison `distance < min_distance` is modelled exactly as
`distSq < min_distance²`. -/
def roomReject (rooms : List Room) (new_room : Room) (min_distance : Int) : Bool :=
  rooms.any fun room =>
    new_room.intersects room ||
    (decide (0 < min_distance) &&
      decide (distSq new_room.center room.center < min_distance ^ 2))

/-- Population of a freshly placed non-fallback room (`_add_room` success
path): 80% monster gate, item roll, and a feature roll for special rooms. -/
def populateNewRoom (d : Dungeon) (new_room : Room) : M Room :=
  if new_room.room_type ≠ "entrance" then do
    let mroll ← rand100
    let r1 ← if mroll < 80 then new_room.place_enemies d.player_level d.area_index
             else pure new_room
    let r2 ← r1.place_items d.player_level
    if new_room.room_type = "special" then r2.add_special_feature d.area_index
    else pure r2
  else pure new_room

/-- The 100-attempt loop of `Dungeon._add_room`.  In Python the room object
is appended to `self.rooms` and then mutated by the placement rolls; here
the populated room is computed first and then appended, which yields the
same list. -/
def addRoomAttempts (d : Dungeon) (min_distance : Int) (room_type : String)
    (width height : Int) : Nat → M (Option (Room × Dungeon))
  | 0 => pure none
  | n + 1 => do
    let x ← randint 1 (d.width - width - 1)
    let y ← randint 1 (d.height - height - 1)
    let new_room : Room :=
      { x := x, y := y, width := width, height := height, room_type := room_type }
    if roomReject d.rooms new_room min_distance then
      addRoomAttempts d min_distance room_type width height n
    else do
      let g ← liftE (fillRect d.grid x y width height Tile.floor)
      let d1 := { d with grid := g }
      let r' ← populateNewRoom d1 new_room
      pure (some (r', { d1 with rooms := d1.rooms ++ [r'] }))

/-- Corner-fallback of `_add_room`: a 5×5 room at the first corner that
intersects no existing room; no enemies/items are placed on this path. -/
def addRoomCorners (d : Dungeon) (room_type : String) :
    List (Int × Int) → Except String (Option (Room × Dungeon))
  | [] => .ok none
  | (x, y) :: rest =>
    let new_room : Room :=
      { x := x, y := y, width := 5, height := 5, room_type := room_type }
    if d.rooms.any (fun room => new_room.intersects room) then
      addRoomCorners d room_type rest
    else
      match fillRect d.grid x y 5 5 Tile.floor with
      | .ok g => .ok (some (new_room,
          { d with grid := g, rooms := d.rooms ++ [new_room] }))
      | .error e => .error e

/-- Last-resort fallback of `_add_room`: a 5×5 room forced at the grid
center, ignoring intersections. -/
def addRoomForced (d : Dungeon) (room_type : String) :
    Except String (Room × Dungeon) :=
  let x := d.width / 2 - 2
  let y := d.height / 2 - 2
  let new_room : Room :=
    { x := x, y := y, width := 5, height := 5, room_type := room_type }
  match fillRect d.grid x y 5 5 Tile.floor with
  | .ok g => .ok (new_room, { d with grid := g, rooms := d.rooms ++ [new_room] })
  | .error e => .error e

/-- Model of `Dungeon._add_room(min_distance, room_type)`. -/
def Dungeon.add_room (d : Dungeon) (min_distance : Int) (room_type : String) :
    M (Room × Dungeon) := do
  let wh ← if room_type = "entrance" ∨ room_type = "exit" then do
      let w ← randint 6 11
      let h ← randint 6 11
      pure (w, h)
    else do
      let w ← randint 5 10
      let h ← randint 5 10
      pure (w, h)
  let res ← addRoomAttempts d min_distance room_type wh.1 wh.2 100
  match res with
  | some rd => pure rd
  | none => do
    let corners := [((1 : Int), (1 : Int)), (1, d.height - 6),
                    (d.width - 6, 1), (d.width - 6, d.height - 6)]
    let cres ← liftE (addRoomCorners d room_type corners)
    match cres with
    | some rd => pure rd
    | none => liftE (addRoomForced d room_type)

/-- Write a column segment `grid[y][x] = t for y in ys` with numpy
semantics. -/
def fillCol (g : Grid) (x : Int) (ys : List Int) (t : Tile) : Except String Grid :=
  match ys with
  | [] => .ok g
  | y :: rest =>
    match gridSet g y x t with
    | .ok g' => fillCol g' x rest t
    | .error e => .error e

/-- Door-placement scan of `_create_corridor`: the four neighbors of the
corridor's room-side endpoint, first floor cell becomes a closed door. -/
def doorScan (d : Dungeon) (g : Grid) (x1 y1 : Int) :
    List (Int × Int) → Except String (Grid × List DoorObj)
  | [] => .ok (g, d.objects)
  | (dx, dy) :: rest =>
    let nx := x1 + dx
    let ny := y1 + dy
    if 0 ≤ nx ∧ nx < d.width ∧ 0 ≤ ny ∧ ny < d.height then
      if gget g ny nx = Tile.floor then
        match gridSet g ny nx Tile.door with
        | .ok g' => .ok (g', d.objects ++ [⟨(nx, ny), "closed"⟩])
        | .error e => .error e
      else doorScan d g x1 y1 rest
    else doorScan d g x1 y1 rest

/-- The L-shaped carve of `_create_corridor`: horizontal-then-vertical when
the 70% roll succeeds, vertical-then-horizontal otherwise. -/
def corridorCarve (g0 : Grid) (point1 point2 : Int × Int) (orient : Nat) :
    Except String Grid :=
  let x1 := point1.1
  let y1 := point1.2
  let x2 := point2.1
  let y2 := point2.2
  if orient < 70 then do
    let ga ← fillRow g0 y1 (intRange (min x1 x2) (max x1 x2 + 1)) Tile.floor
    fillCol ga x2 (intRange (min y1 y2) (max y1 y2 + 1)) Tile.floor
  else do
    let ga ← fillCol g0 x1 (intRange (min y1 y2) (max y1 y2 + 1)) Tile.floor
    fillRow ga y2 (intRange (min x1 x2) (max x1 x2 + 1)) Tile.floor

/-- Model of `Dungeon._create_corridor(point1, point2)`: an L-shaped floor
carve (70% horizontal-first), then a 20% chance to convert one floor
neighbor of `point1` into a closed door when `point1` lies in a room. -/
def Dungeon.create_corridor (d : Dungeon) (point1 point2 : Int × Int) : M Dungeon := do
  let x1 := point1.1
  let y1 := point1.2
  let orient ← rand100
  let g ← liftE (corridorCarve d.grid point1 point2 orient)
  let droll ← rand100
  if droll < 20 then
    if (d.rooms.find? (fun room =>
        decide (room.x ≤ x1) && decide (x1 ≤ room.x + room.width) &&
        decide (room.y ≤ y1) && decide (y1 ≤ room.y + room.height))).isSome then do
      let gd ← liftE (doorScan d g x1 y1 [(0, 1), (1, 0), (0, -1), (-1, 0)])
      pure { d with grid := gd.1, objects := gd.2 }
    else
      pure { d with grid := g }
  else
    pure { d with grid := g }

/-- Mark a room connected. -/
def Room.markConnected (r : Room) : Room := { r with connected := true }

/-- Selection of the closest (unconnected, connected) room pair in
`_connect_rooms`, scanning unconnected rooms in list order against
connected rooms in `self.rooms` order, keeping the first strict minimum
(the float comparison `distance < closest_distance` is exactly
`distSq < bestSq`). -/
def closestPair (rooms : List Room) (unconnected : List Nat) : Option (Nat × Nat) :=
  let connectedIdx := (List.range rooms.length).filter
    (fun i => (rooms.getD i default).connected)
  (unconnected.foldl (fun acc u =>
    connectedIdx.foldl (fun acc2 c =>
      let dsq := distSq (rooms.getD u default).center (rooms.getD c default).center
      match acc2 with
      | none => some (dsq, u, c)
      | some best => if dsq < best.1 then some (dsq, u, c) else acc2) acc)
    none).map (·.2)

/-- The while-loop of `_connect_rooms`; `fuel` is the initial number of
unconnected rooms (each iteration removes one, exactly as the source's
`unconnected.remove`).  The source loops forever if no pair is found (never
the case, as the entrance room is connected up front); that dead path is
modelled as an error. -/
def connectLoop (d : Dungeon) (unconnected : List Nat) : Nat → M Dungeon
  | 0 => if unconnected.isEmpty then pure d else mthrow "nonterminating connect loop"
  | fuel + 1 =>
    if unconnected.isEmpty then pure d
    else
      match closestPair d.rooms unconnected with
      | none => mthrow "nonterminating connect loop"
      | some uc => do
        let d' ← d.create_corridor (d.rooms.getD uc.1 default).center
          (d.rooms.getD uc.2 default).center
        let rooms' := d'.rooms.set uc.1 ((d'.rooms.getD uc.1 default).markConnected)
        connectLoop { d' with rooms := rooms' } (unconnected.erase uc.1) fuel

/-- Model of `Dungeon._connect_rooms()`. -/
def Dungeon.connect_rooms (d : Dungeon) : M Dungeon := do
  let eIdx ← match d.rooms.findIdx? (fun r => r.room_type == "entrance") with
    | some i => pure i
    | none => if d.rooms.isEmpty then mthrow "IndexError: rooms[0]" else pure 0
  let rooms := d.rooms.set eIdx ((d.rooms.getD eIdx default).markConnected)
  let unconnected := (List.range rooms.length).filter
    (fun i => !(rooms.getD i default).connected)
  connectLoop { d with rooms := rooms } unconnected unconnected.length

/-- Model of `Dungeon._populate_dungeon()`: rebuild the level-wide enemy
and item lists from the rooms, in room order. -/
def Dungeon.populate (d : Dungeon) : Dungeon :=
  { d with enemies := d.rooms.foldl (fun acc r => acc ++ r.enemies) [],
           items := d.rooms.foldl (fun acc r => acc ++ r.items) [] }

/-- Side-room loop of `_generate_final_area`: append, carve (guarded), and
populate each antechamber; returns the updated dungeon together with the
populated side rooms (the Python list holds the mutated objects). -/
def finalSideLoop (d : Dungeon) : List Room → M (Dungeon × List Room)
  | [] => pure (d, [])
  | room :: rest => do
    let g := fillRectGuarded d.grid d.width d.height room.x room.y
      room.width room.height Tile.floor
    let room' ←
      if room.room_type ≠ "entrance" then do
        let r1 ← room.place_enemies d.player_level d.area_index
        let r2 ← r1.place_items d.player_level
        r2.add_special_feature d.area_index
      else pure room
    let d' := { d with grid := g, rooms := d.rooms ++ [room'] }
    let dr ← finalSideLoop d' rest
    pure (dr.1, room' :: dr.2)

/-- Corridor loop of `_generate_final_area`. -/
def finalCorridors (d : Dungeon) (throneCenter : Int × Int) : List Room → M Dungeon
  | [] => pure d
  | room :: rest => do
    let d' ← d.create_corridor room.center throneCenter
    finalCorridors d' throneCenter rest

/-- Model of `Dungeon._generate_final_area()`: fixed throne room with the
final boss (level `player_level + 5`), three antechambers, direct
corridors, entrance stairs at the entrance antechamber's center. -/
def Dungeon.generate_final_area (d0 : Dungeon) : M Dungeon := do
  let throne0 : Room := { x := d0.width / 2 - 5, y := d0.height / 2 - 5,
                          width := 10, height := 10, room_type := "boss" }
  let g1 := fillRectGuarded d0.grid d0.width d0.height throne0.x throne0.y 10 10 Tile.floor
  let throne : Room := { throne0 with
    enemies := [⟨"boss", throne0.center, d0.player_level + 5⟩] }
  let d1 := { d0 with grid := g1, rooms := d0.rooms ++ [throne] }
  let sides : List Room := [
    { x := throne0.x - 8, y := throne0.y, width := 6, height := 6, room_type := "special" },
    { x := throne0.x + throne0.width + 2, y := throne0.y, width := 6, height := 6,
      room_type := "special" },
    { x := throne0.x, y := throne0.y - 8, width := 6, height := 6, room_type := "entrance" }]
  let dsr ← finalSideLoop d1 sides
  let d3 ← finalCorridors dsr.1 throne0.center dsr.2
  let entC := (sides.getD 2 default).center
  let g2 ← liftE (gridSet d3.grid entC.2 entC.1 Tile.stairsUp)
  pure (Dungeon.populate { d3 with grid := g2, entrance := some entC })

/-- Middle-room loop of `Dungeon.generate` (`for i in range(1, num_rooms-1)`). -/
def middleRooms (d : Dungeon) : Nat → M Dungeon
  | 0 => pure d
  | n + 1 => do
    let roll ← rand100
    let room_type := if roll < 20 then "special" else "normal"
    let rd ← d.add_room 0 room_type
    middleRooms rd.2 n

/-- Model of `Dungeon.generate()`. -/
def Dungeon.generate (d0 : Dungeon) : M Dungeon := do
  let d := { d0 with
    grid := List.replicate d0.height.toNat (List.replicate d0.width.toNat Tile.wall) }
  if d.area_index = 6 then d.generate_final_area
  else do
    let num_rooms ← randint 8 12
    let ed ← d.add_room 0 "entrance"
    let d := { ed.2 with entrance := some ed.1.center }
    let d ← middleRooms d (num_rooms - 2).toNat
    let xd ← d.add_room ((max d.width d.height) / 3) "exit"
    let d := { xd.2 with exit := some xd.1.center }
    let d ← d.connect_rooms
    let g1 ← match d.entrance with
      | some p => liftE (gridSet d.grid p.2 p.1 Tile.stairsUp)
      | none => mthrow "TypeError: entrance is None"
    let g2 ← match d.exit with
      | some p => liftE (gridSet g1 p.2 p.1 Tile.stairsDown)
      | none => mthrow "TypeError: exit is None"
    pure (Dungeon.populate { d with grid := g2 })

/-- Inner 50-attempt loop of `Dungeon.add_traps`: first random floor cell
that is not the entrance, not the exit and holds no enemy or item becomes a
trap; give up silently after 50 attempts. -/
def trapAttempts (d : Dungeon) : Nat → M Dungeon
  | 0 => pure d
  | n + 1 => do
    let x ← randint 1 (d.width - 2)
    let y ← randint 1 (d.height - 2)
    if gget d.grid y x = Tile.floor then
      if some (x, y) ≠ d.entrance ∧ some (x, y) ≠ d.exit then
        if d.enemies.any (fun e => e.pos = (x, y)) then trapAttempts d n
        else if d.items.any (fun it => it.pos = (x, y)) then trapAttempts d n
        else do
          let g ← liftE (gridSet d.grid y x Tile.trap)
          pure { d with grid := g }
      else trapAttempts d n
    else trapAttempts d n

/-- Outer loop of `Dungeon.add_traps` (`2 + area_index` placement rounds). -/
def trapOuter (d : Dungeon) : Nat → M Dungeon
  | 0 => pure d
  | n + 1 => do
    let d' ← trapAttempts d 50
    trapOuter d' n

/-- Model of `Dungeon.add_traps()`. -/
def Dungeon.add_traps (d : Dungeon) : M Dungeon :=
  trapOuter d (2 + d.area_index).toNat

/-- Walkability test of `get_walkable_neighbors`: membership of the tile in
`[FLOOR, DOOR, STAIRS_UP, STAIRS_DOWN]`. -/
def walkTile (t : Tile) : Bool :=
  t = Tile.floor || t = Tile.door || t = Tile.stairsUp || t = Tile.stairsDown

/-- A grid coordinate. -/
abbrev Cell := Int × Int

/-- Model of `Dungeon.get_walkable_neighbors(x, y)`: the in-bounds walkable
cells among the four neighbors, in source scan order. -/
def Dungeon.get_walkable_neighbors (d : Dungeon) (x y : Int) : List Cell :=
  ([((0 : Int), (1 : Int)), (1, 0), (0, -1), (-1, 0)]).filterMap fun dd =>
    let nx := x + dd.1
    let ny := y + dd.2
    if 0 ≤ nx ∧ nx < d.width ∧ 0 ≤ ny ∧ ny < d.height then
      if walkTile (gget d.grid ny nx) then some (nx, ny) else none
    else none

/-- A* priority: the pair `(g, d2)` denotes the real number `g + √d2`,
which is the source's `tentative_g + euclidean_distance(neighbor, end)`
(the initial entry's literal priority `0` is `(0, 0)`). -/
abbrev Fprio := Nat × Nat

/-- Exact comparison `g1 + √d1 ≤ g2 + √d2` over the integers, the
idealization of the source's float comparison used by `open_set.sort`. -/
def fLe (p q : Fprio) : Bool :=
  let c : Int := (q.1 : Int) - p.1
  if 0 ≤ c then
    let l : Int := (p.2 : Int) - q.2 - c ^ 2
    decide (l ≤ 0) || decide (l ^ 2 ≤ 4 * c ^ 2 * q.2)
  else
    let r : Int := (q.2 : Int) - p.2 - c ^ 2
    decide (0 ≤ r) && decide (4 * c ^ 2 * p.2 ≤ r ^ 2)

/-- Stable insertion of `x` into `acc` behind every element `≤ x`. -/
def insertSorted {α : Type} (le : α → α → Bool) (x : α) : List α → List α
  | [] => [x]
  | y :: ys => if le y x then y :: insertSorted le x ys else x :: y :: ys

/-- Stable sort (model of Python's stable `list.sort(key=…)`). -/
def stableSort {α : Type} (le : α → α → Bool) (l : List α) : List α :=
  l.foldl (fun acc x => insertSorted le x acc) []

/-- Association-list lookup keyed by cells (model of dict lookup). -/
def alookup {β : Type} (l : List (Cell × β)) (k : Cell) : Option β :=
  (l.find? (fun p => p.1 = k)).map (·.2)

/-- Association-list insert-or-update (model of dict assignment). -/
def aupsert {β : Type} (l : List (Cell × β)) (k : Cell) (v : β) : List (Cell × β) :=
  if (l.find? (fun p => p.1 = k)).isSome then
    l.map (fun p => if p.1 = k then (k, v) else p)
  else l ++ [(k, v)]

/-- Neighbor relaxation of the A* inner `for neighbor in …` loop: update
`came_from`/`g_score` and append to the open set whenever the neighbor is
unseen or improved. -/
def relaxAll (cur en : Cell) (gcur : Nat) :
    List Cell → List (Cell × Fprio) → List (Cell × Nat) → List (Cell × Cell) →
    List (Cell × Fprio) × List (Cell × Nat) × List (Cell × Cell)
  | [], opn, gs, cf => (opn, gs, cf)
  | n :: rest, opn, gs, cf =>
    let tg := gcur + 1
    let improve := match alookup gs n with
      | none => true
      | some old => tg < old
    if improve then
      relaxAll cur en gcur rest (opn ++ [(n, (tg, (distSq n en).toNat))])
        (aupsert gs n tg) (aupsert cf n cur)
    else
      relaxAll cur en gcur rest opn gs cf

/-- Path reconstruction (`path = [current]; while current in came_from: …;
return path[::-1]`); the fuel is an upper bound on the parent-chain length,
proved sufficient below. -/
def reconstruct (cf : List (Cell × Cell)) : Nat → Cell → List Cell → List Cell
  | 0, _, path => path.reverse
  | fuel + 1, cur, path =>
    match alookup cf cur with
    | some p => reconstruct cf fuel p (path ++ [p])
    | none => path.reverse

/-- The A* main loop of `Dungeon.find_path`: sort the open set by priority,
pop the head, stop at the goal, otherwise relax the walkable neighbors.
`fuel` is an upper bound on the number of iterations, proved sufficient
below (the source's loop always terminates). -/
def astarLoop (d : Dungeon) (en : Cell) :
    Nat → List (Cell × Fprio) → List (Cell × Nat) → List (Cell × Cell) →
    Option (List Cell)
  | 0, _, _, _ => none
  | fuel + 1, opn, gs, cf =>
    match stableSort (fun a b => fLe a.2 b.2) opn with
    | [] => none
    | (cur, _) :: rest =>
      if cur = en then some (reconstruct cf (gs.length + 1) cur [cur])
      else
        let gcur := (alookup gs cur).getD 0
        let ns := d.get_walkable_neighbors cur.1 cur.2
        let ogc := relaxAll cur en gcur ns rest gs cf
        astarLoop d en fuel ogc.1 ogc.2.1 ogc.2.2

/-- Iteration bound for the A* loop on a `w × h` grid. -/
def astarFuel (d : Dungeon) : Nat :=
  let n := d.width.toNat * d.height.toNat + 1
  5 * n * n + 2

/-- Model of `Dungeon.find_path(start, end)`. -/
def Dungeon.find_path (d : Dungeon) (start en : Cell) : Option (List Cell) :=
  if start.1 < 0 ∨ start.1 ≥ d.width ∨ start.2 < 0 ∨ start.2 ≥ d.height ∨
     en.1 < 0 ∨ en.1 ≥ d.width ∨ en.2 < 0 ∨ en.2 ≥ d.height ∨
     gget d.grid start.2 start.1 = Tile.wall ∨ gget d.grid en.2 en.1 = Tile.wall
  then none
  else astarLoop d en (astarFuel d) [(start, (0, 0))] [(start, 0)] []

/-- Result of `DungeonManager.move_player`: Python returns `True` for a
completed move (including stair transitions), `False` when blocked, and
tagged tuples for item/enemy/trap events. -/
inductive MoveRes where
  | moved | blocked
  | item (it : Item)
  | enemy (e : Enemy)
  | trap
deriving DecidableEq, Repr

/-- One `increase_enemies` spawn: the first non-entrance/non-exit room in
list order receives one extra normal enemy at a random interior cell. -/
def incEnemiesOnce (d : Dungeon) : M Dungeon :=
  match d.rooms.find? (fun room =>
      room.room_type != "entrance" && room.room_type != "exit") with
  | none => pure d
  | some room => do
    let x ← interiorDraw room.x room.width
    let y ← interiorDraw room.y room.height
    let dl ← randint (-1) 1
    pure { d with enemies := d.enemies ++
      [⟨"normal", (x, y), max 1 (d.player_level + dl)⟩] }

/-- Loop of `increase_enemies` over the 50% extra-enemy count. -/
def incEnemiesLoop (d : Dungeon) : Nat → M Dungeon
  | 0 => pure d
  | n + 1 => do
    let d' ← incEnemiesOnce d
    incEnemiesLoop d' n

/-- Removal of `n` uniformly random items (`less_items` / `extreme_mode`
inner loop, with the `if dungeon.items:` guard). -/
def popRandomItems (d : Dungeon) : Nat → M Dungeon
  | 0 => pure d
  | n + 1 =>
    if d.items.isEmpty then popRandomItems d n
    else do
      let i ← randrange d.items.length
      popRandomItems { d with items := d.items.eraseIdx i } n

/-- Loop of `elite_enemies`: pick a random enemy, and unless it is a boss
retag it elite with +3 levels. -/
def eliteLoop (d : Dungeon) : Nat → M Dungeon
  | 0 => pure d
  | n + 1 =>
    if d.enemies.isEmpty then eliteLoop d n
    else do
      let idx ← randrange d.enemies.length
      let e := d.enemies.getD idx default
      let d' := if e.etype ≠ "boss" then
          { d with enemies := d.enemies.set idx { e with etype := "elite", level := e.level + 3 } }
        else d
      eliteLoop d' n

/-- The `double_bosses` per-room step: the first boss enemy of a boss room
spawns a second boss near the room center (offsets in `[-2, 2]`), one
level below the first. -/
def doubleBossRoom (d : Dungeon) (room : Room) : M Dungeon :=
  match room.enemies.find? (fun e => e.etype == "boss") with
  | none => pure d
  | some enemy => do
    let ox ← randint (-2) 2
    let oy ← randint (-2) 2
    let c := room.center
    pure { d with enemies := d.enemies ++
      [⟨"boss", (c.1 + ox, c.2 + oy), enemy.level - 1⟩] }

/-- Loop of `double_bosses` over the room list. -/
def doubleBossLoop (d : Dungeon) : List Room → M Dungeon
  | [] => pure d
  | room :: rest => do
    let d' ← if room.room_type = "boss" then doubleBossRoom d room else pure d
    doubleBossLoop d' rest

/-- The per-modifier `elif` chain of
`DungeonManager._apply_heat_modifiers`; unrecognized effects (including
`less_health`, `no_healing`, `time_limit`) have no generation-time effect. -/
def applyMod (d : Dungeon) (mod : Modifier) : M Dungeon :=
  if mod.effect = "increase_enemies" then
    incEnemiesLoop d (d.enemies.length / 2)
  else if mod.effect = "stronger_enemies" then
    pure { d with enemies := d.enemies.map (fun e => { e with level := e.level + 2 }) }
  else if mod.effect = "more_traps" then do
    let d1 ← d.add_traps
    d1.add_traps
  else if mod.effect = "less_items" then
    let num := d.items.length / 2
    if 0 < num then popRandomItems d num else pure d
  else if mod.effect = "elite_enemies" then
    eliteLoop d (max 1 (d.enemies.length / 4))
  else if mod.effect = "double_bosses" then
    doubleBossLoop d d.rooms
  else if mod.effect = "extreme_mode" then do
    let d1 ← d.add_traps
    let d2 ← d1.add_traps
    let d3 := { d2 with enemies := d2.enemies.map (fun e => { e with level := e.level + 3 }) }
    let num := d3.items.length * 3 / 4
    if 0 < num then popRandomItems d3 num else pure d3
  else pure d

/-- Fold of `_apply_heat_modifiers` over the active modifiers in
activation order. -/
def applyModsLoop (d : Dungeon) : List Modifier → M Dungeon
  | [] => pure d
  | mod :: rest => do
    let d' ← applyMod d mod
    applyModsLoop d' rest

/-- Model of `DungeonManager._apply_heat_modifiers(dungeon)`. -/
def Mgr.apply_heat_modifiers (m : Mgr) (d : Dungeon) : M Dungeon :=
  applyModsLoop d m.active_modifiers

/-- Model of `DungeonManager.__init__(width, height)`. -/
def mkMgr (width height : Int) : Mgr :=
  ⟨width, height, [], 0, none, 1, 0, []⟩

/-- Model of `DungeonManager.generate_area(area_index, player_level)`. -/
def Mgr.generate_area (m : Mgr) (area_index player_level : Int) : M Dungeon := do
  let dungeon ← (mkDungeon m.width m.height player_level area_index).generate
  m.apply_heat_modifiers dungeon

/-- The `for i in range(7)` loop of `generate_all_areas`. -/
def genAreasLoop (m : Mgr) (player_level : Int) (i : Int) : Nat → M (List Dungeon)
  | 0 => pure []
  | n + 1 => do
    let d ← m.generate_area i player_level
    let rest ← genAreasLoop m player_level (i + 1) n
    pure (d :: rest)

/-- Model of `DungeonManager.generate_all_areas(player_level)`. -/
def Mgr.generate_all_areas (m : Mgr) (player_level : Int) : M Mgr := do
  let m1 := { m with dungeons := [], player_level := player_level }
  let ds ← genAreasLoop m1 player_level 0 7
  let first ← liftE (listGetPy ds 0)
  pure { m1 with dungeons := ds, current_area := 0, player_pos := first.entrance }

/-- Model of `DungeonManager.enter_area(area_index)`.  Note that the source
assigns `self.current_area = area_index` before comparing
`area_index > self.current_area`, so that comparison is against the target
itself. -/
def Mgr.enter_area (m : Mgr) (area_index : Int) : Mgr × Bool :=
  if 0 ≤ area_index ∧ area_index < (m.dungeons.length : Int) then
    let m1 := { m with current_area := area_index }
    let target := m1.dungeons.getD area_index.toNat default
    let pos :=
      if area_index = 0 ∨ m1.player_pos = none then target.entrance
      else if area_index > m1.current_area then target.entrance
      else target.exit
    ({ m1 with player_pos := pos }, true)
  else (m, false)

/-- Door interaction of `move_player`: the first door object at the target
cell is opened if closed, converting the tile to floor. -/
def doorInteract (dungeon : Dungeon) (nx ny : Int) : Except String Dungeon :=
  match dungeon.objects.findIdx? (fun o => o.pos == (nx, ny)) with
  | none => .ok dungeon
  | some i =>
    let obj := dungeon.objects.getD i default
    if obj.state = "closed" then
      match gridSet dungeon.grid ny nx Tile.floor with
      | .ok g =>
        .ok { dungeon with
          grid := g, objects := dungeon.objects.set i { obj with state := "open" } }
      | .error e => .error e
    else .ok dungeon

/-- Model of `DungeonManager.move_player(dx, dy)`. -/
def Mgr.move_player (m : Mgr) (dx dy : Int) : Except String (MoveRes × Mgr) := do
  let dungeon ← listGetPy m.dungeons m.current_area
  let p ← match m.player_pos with
    | some p => Except.ok p
    | none => Except.error "TypeError: player_pos is None"
  let nx := p.1 + dx
  let ny := p.2 + dy
  if 0 ≤ nx ∧ nx < dungeon.width ∧ 0 ≤ ny ∧ ny < dungeon.height ∧
     gget dungeon.grid ny nx ≠ Tile.wall then do
    let tile_type := gget dungeon.grid ny nx
    let d1 ← if tile_type = Tile.door then doorInteract dungeon nx ny
             else Except.ok dungeon
    if tile_type = Tile.stairsUp ∧ 0 < m.current_area then
      let m' := { m with dungeons := listSetPy m.dungeons m.current_area d1 }
      Except.ok (MoveRes.moved, (m'.enter_area (m'.current_area - 1)).1)
    else if tile_type = Tile.stairsDown ∧
        m.current_area < (m.dungeons.length : Int) - 1 then
      let m' := { m with dungeons := listSetPy m.dungeons m.current_area d1 }
      Except.ok (MoveRes.moved, (m'.enter_area (m'.current_area + 1)).1)
    else
      let mMoved := { m with player_pos := some (nx, ny) }
      match d1.items.findIdx? (fun it => it.pos == (nx, ny)) with
      | some i =>
        let picked := d1.items.getD i default
        let d2 := { d1 with items := d1.items.eraseIdx i }
        Except.ok (MoveRes.item picked,
          { mMoved with dungeons := listSetPy mMoved.dungeons mMoved.current_area d2 })
      | none =>
        match d1.enemies.find? (fun e => e.pos == (nx, ny)) with
        | some e =>
          Except.ok (MoveRes.enemy e,
            { mMoved with dungeons := listSetPy mMoved.dungeons mMoved.current_area d1 })
        | none =>
          if tile_type = Tile.trap then do
            let g ← gridSet d1.grid ny nx Tile.floor
            let d2 := { d1 with grid := g }
            Except.ok (MoveRes.trap,
              { mMoved with dungeons := listSetPy mMoved.dungeons mMoved.current_area d2 })
          else
            Except.ok (MoveRes.moved,
              { mMoved with dungeons := listSetPy mMoved.dungeons mMoved.current_area d1 })
  else
    Except.ok (MoveRes.blocked, m)

/-- The fixed modifier table of `increase_heat`. -/
def potential_modifiers : List Modifier := [
  ⟨"More Enemies", "increase_enemies", 1⟩,
  ⟨"Stronger Enemies", "stronger_enemies", 2⟩,
  ⟨"Less Health", "less_health", 3⟩,
  ⟨"More Traps", "more_traps", 4⟩,
  ⟨"Less Items", "less_items", 5⟩,
  ⟨"Elite Enemies", "elite_enemies", 6⟩,
  ⟨"No Healing", "no_healing", 7⟩,
  ⟨"Time Limit", "time_limit", 8⟩,
  ⟨"Double Bosses", "double_bosses", 9⟩,
  ⟨"Extreme Mode", "extreme_mode", 10⟩]

/-- The first table entry whose threshold is reached and which is not yet
active — the entry at which the source's scan appends, regenerates and
`break`s. -/
def firstNewModifier (heat : Int) (active : List Modifier) : Option Modifier :=
  potential_modifiers.find? (fun mod =>
    decide (mod.min_heat ≤ heat) && decide (mod ∉ active))

/-- Model of `DungeonManager.increase_heat(amount)`. -/
def Mgr.increase_heat (m : Mgr) (amount : Int) : M Mgr :=
  let m1 := { m with heat_level := m.heat_level + amount }
  match firstNewModifier m1.heat_level m1.active_modifiers with
  | none => pure m1
  | some mod =>
    Mgr.generate_all_areas
      { m1 with active_modifiers := m1.active_modifiers ++ [mod] } m1.player_level

/-- Sequence of `increase_heat` calls (for the heat-monotonicity claim). -/
def runHeatSeq (m : Mgr) : List Int → M Mgr
  | [] => pure m
  | a :: rest => do
    let m' ← m.increase_heat a
    runHeatSeq m' rest

/-- A cell lies inside the level rectangle. -/
def inBoundsD (d : Dungeon) (c : Cell) : Prop :=
  0 ≤ c.1 ∧ c.1 < d.width ∧ 0 ≤ c.2 ∧ c.2 < d.height

instance (d : Dungeon) (c : Cell) : Decidable (inBoundsD d c) := by
  unfold inBoundsD; infer_instance

/-- A cell the player can stand on: in bounds and of walkable tile kind. -/
def walkCell (d : Dungeon) (c : Cell) : Prop :=
  inBoundsD d c ∧ walkTile (gget d.grid c.2 c.1) = true

instance (d : Dungeon) (c : Cell) : Decidable (walkCell d c) := by
  unfold walkCell; infer_instance

/-- Four-directional adjacency of two cells. -/
def adjCell (a b : Cell) : Prop :=
  (a.1 = b.1 ∧ (b.2 = a.2 + 1 ∨ b.2 = a.2 - 1)) ∨
  (a.2 = b.2 ∧ (b.1 = a.1 + 1 ∨ b.1 = a.1 - 1))

instance (a b : Cell) : Decidable (adjCell a b) := by
  unfold adjCell; infer_instance

/-- One step of four-directional movement over walkable tiles. -/
def stepW (d : Dungeon) (a b : Cell) : Prop :=
  walkCell d a ∧ walkCell d b ∧ adjCell a b

/-- Reachability by four-directional movement over walkable tiles. -/
def Reaches (d : Dungeon) (a b : Cell) : Prop :=
  Relation.ReflTransGen (stepW d) a b

/-- One step of the pathfinder's neighbor relation (the step leaving `a`
does not constrain `a`'s own tile, exactly as `get_walkable_neighbors`). -/
def stepN (d : Dungeon) (a b : Cell) : Prop :=
  b ∈ d.get_walkable_neighbors a.1 a.2

/-- Reachability in the pathfinder's neighbor relation. -/
def ReachableN (d : Dungeon) (a b : Cell) : Prop :=
  Relation.ReflTransGen (stepN d) a b

/-- Strict interior of a room: off the one-cell border on every side. -/
def inInterior (r : Room) (p : Cell) : Prop :=
  r.x + 1 ≤ p.1 ∧ p.1 ≤ r.x + r.width - 2 ∧
  r.y + 1 ≤ p.2 ∧ p.2 ≤ r.y + r.height - 2

instance (r : Room) (p : Cell) : Decidable (inInterior r p) := by
  unfold inInterior; infer_instance

/-- Number of trap tiles on a grid. -/
def trapCount (g : Grid) : Nat :=
  (g.map (fun row => (row.filter (fun t => t = Tile.trap)).length)).sum

/-- Concrete level for the pathfinder counterexample: a trap cell next to a
floor cell (reachable states: traps are produced by the `more_traps` and
`extreme_mode` modifiers, and `find_path` accepts arbitrary endpoints). -/
def dC6 : Dungeon where
  width := 2
  height := 1
  player_level := 1
  area_index := 0
  grid := [[Tile.trap, Tile.floor]]
  rooms := []
  entrance := none
  exit := none
  objects := []
  enemies := []
  items := []

/-- Concrete level for the trap-placement counterexample: one floor cell,
which is the entrance, so no trap can ever be placed. -/
def dC8 : Dungeon where
  width := 3
  height := 3
  player_level := 1
  area_index := 0
  grid := [[Tile.wall, Tile.wall, Tile.wall],
           [Tile.wall, Tile.floor, Tile.wall],
           [Tile.wall, Tile.wall, Tile.wall]]
  rooms := []
  entrance := some (1, 1)
  exit := none
  objects := []
  enemies := []
  items := []

/-- Minimal walkable level with distinct entrance and exit, used to probe
the manager operations on concrete inputs. -/
def tinyDungeon (i : Int) : Dungeon where
  width := 3
  height := 1
  player_level := 1
  area_index := i
  grid := [[Tile.floor, Tile.floor, Tile.floor]]
  rooms := []
  entrance := some (0, 0)
  exit := some (2, 0)
  objects := []
  enemies := []
  items := []

/-- Concrete manager state for the `enter_area` claim: seven areas, player
standing in area 0. -/
def mgrC2 : Mgr where
  width := 3
  height := 1
  dungeons := (List.range 7).map (fun i => tinyDungeon i)
  current_area := 0
  player_pos := some (0, 0)
  player_level := 1
  heat_level := 0
  active_modifiers := []

/-- Level with stairs for the boundary-stairs claim: stairs-up at `(1,0)`,
stairs-down at `(3,0)`. -/
def stairsDungeon (i : Int) : Dungeon where
  width := 5
  height := 1
  player_level := 1
  area_index := i
  grid := [[Tile.floor, Tile.stairsUp, Tile.floor, Tile.stairsDown, Tile.floor]]
  rooms := []
  entrance := some (1, 0)
  exit := some (3, 0)
  objects := []
  enemies := []
  items := []

/-- Concrete manager for the boundary-stairs witness: player in area 0
beside the stairs-up cell. -/
def mgrC10 : Mgr where
  width := 5
  height := 1
  dungeons := (List.range 7).map (fun i => stairsDungeon i)
  current_area := 0
  player_pos := some (0, 0)
  player_level := 1
  heat_level := 0
  active_modifiers := []

/-- Random stream steering `Dungeon.generate` on a 22×22 grid into an exit
room whose center is at Euclidean distance exactly 7 = 22 // 3 from the
entrance center: entrance (1,1) 6×6, six far-away normal rooms, exit (8,1)
6×6; no enemies, items or doors. -/
def oracleC7 : RS :=
  [0] ++ [0, 0] ++ [0, 0] ++
  [50, 0, 0, 0, 8, 99, 99] ++ [50, 0, 0, 7, 8, 99, 99] ++ [50, 0, 0, 14, 8, 99, 99] ++
  [50, 0, 0, 0, 14, 99, 99] ++ [50, 0, 0, 7, 14, 99, 99] ++ [50, 0, 0, 14, 14, 99, 99] ++
  [0, 0, 7, 0, 99, 99] ++
  [0, 99] ++ [0, 99] ++ [0, 99] ++ [0, 99] ++ [0, 99] ++ [0, 99] ++ [0, 99]

/-- The level produced by the C7 steering stream. -/
def c7lvl : Dungeon :=
  match (mkDungeon 22 22 1 0).generate oracleC7 with
  | .ok (d, _) => d
  | .error _ => default

/-- The final-area level generated on a 21×7 grid (the all-zero stream;
the final-area geometry is fixed): numpy wrap-around lets generation
complete while the entrance antechamber lies above the grid. -/
def c1lvl : Dungeon :=
  match (mkDungeon 21 7 1 6).generate [] with
  | .ok (d, _) => d
  | .error _ => default

/-- Concrete 5×5 normal room used to witness the interior-spawn claim. -/
def c9room : Room := { x := 1, y := 1, width := 5, height := 5, room_type := "normal" }

/-- Sum of the g-scores of an A* score list. -/
def gsum (gs : List (Cell × Nat)) : Nat :=
  (gs.map (·.2)).sum

/-- One more than the number of cells of a dungeon; a strict upper bound on
the number of distinct keys the A* score dict can hold. -/
def ncells (d : Dungeon) : Nat :=
  d.width.toNat * d.height.toNat + 1

/-- Termination potential of the A* score dict: every relaxation that
inserts a key or improves a score strictly decreases it. -/
def phiA (d : Dungeon) (gs : List (Cell × Nat)) : Nat :=
  ncells d * (ncells d - gs.length) + gsum gs

/-- Encoding of an in-bounds cell as a number below `width·height`. -/
def cellCode (d : Dungeon) (c : Cell) : Nat :=
  c.2.toNat * d.width.toNat + c.1.toNat

/-- Invariant of the A* score dict: no duplicate keys, in-bounds keys,
scores below the dict size, and the start pinned at score 0. -/
def astarInvGS (d : Dungeon) (start : Cell) (gs : List (Cell × Nat)) : Prop :=
  (gs.map Prod.fst).Nodup ∧
  (∀ p ∈ gs, inBoundsD d p.1) ∧
  (∀ c g, alookup gs c = some g → g + 1 ≤ gs.length) ∧
  alookup gs start = some 0

/-- Invariant tying `came_from` to the score dict: every recorded parent
edge is a pathfinder step and strictly decreases the score, and every
non-start key of the dict has a parent. -/
def astarInvCF (d : Dungeon) (start : Cell) (gs : List (Cell × Nat))
    (cf : List (Cell × Cell)) : Prop :=
  (∀ c p, alookup cf c = some p → stepN d p c ∧
    ∃ gc gp, alookup gs c = some gc ∧ alookup gs p = some gp ∧ gp < gc) ∧
  (∀ c g, alookup gs c = some g → c ≠ start → alookup cf c ≠ none)

/-- Invariant of the open list: every open cell is scored, every scored
cell is open or fully expanded, and the goal, once scored, stays open. -/
def astarInvOpen (d : Dungeon) (en : Cell) (opn : List (Cell × Fprio))
    (gs : List (Cell × Nat)) : Prop :=
  (∀ e ∈ opn, alookup gs e.1 ≠ none) ∧
  (∀ c g, alookup gs c = some g →
    (∃ pr, (c, pr) ∈ opn) ∨
    ∀ nb ∈ d.get_walkable_neighbors c.1 c.2, alookup gs nb ≠ none) ∧
  (alookup gs en ≠ none → ∃ pr, (en, pr) ∈ opn)

/-!
Theorems.  First the running lemmas for the monadic embedding, then helper
lemmas, then one theorem (with witness / counterexample where required) per
specification claim.
-/

theorem pure_run {α : Type} (a : α) (s : RS) : (pure a : M α) s = .ok (a, s) := rfl

theorem bind_run {α β : Type} (m : M α) (f : α → M β) (s : RS) :
    (m >>= f) s = match m s with
      | .ok (a, s') => f a s'
      | .error e => .error e := rfl

theorem mthrow_run {α : Type} (msg : String) (s : RS) :
    (mthrow msg : M α) s = .error msg := rfl

theorem nextNat_run (s : RS) : nextNat s = .ok (s.headD 0, s.tail) := rfl

theorem liftE_run {α : Type} (e : Except String α) (s : RS) :
    liftE e s = e.map (·, s) := rfl

/-- A cell that is not walkable reaches no other cell over walkable tiles. -/
theorem not_reaches_of_not_walk (d : Dungeon) (a b : Cell)
    (hw : ¬ walkCell d a) (hne : a ≠ b) : ¬ Reaches d a b := by
  intro h
  rcases Relation.ReflTransGen.cases_head h with h' | ⟨c, hstep, _⟩
  · exact hne h'
  · exact hw hstep.1

/-- Claim C2 (code bug): `enter_area` assigns `self.current_area =
area_index` before testing `area_index > self.current_area`, so the
"going down → entrance" branch is unreachable; entering a higher area
from area 0 with a live player position lands on the target's *exit*,
while the spec (and the source's own comments) put it at the entrance. -/
theorem c2_code_bug :
    mgrC2.current_area = 0 ∧ mgrC2.player_pos = some (0, 0) ∧
    (mgrC2.enter_area 1).2 = true ∧
    (mgrC2.enter_area 1).1.current_area = 1 ∧
    (tinyDungeon 1).entrance = some (0, 0) ∧
    (tinyDungeon 1).exit = some (2, 0) ∧
    (mgrC2.enter_area 1).1.player_pos = some (2, 0) :=
  ⟨rfl, rfl, rfl, rfl, rfl, rfl, rfl⟩

set_option maxRecDepth 8000 in
/-- Counterexample to claim C1 as stated: on a 21×7 grid the final-area
generator completes (numpy wrap-around), yet the entrance lands at
`(8, -7)`, outside the grid, so the throne room's center `(10, 3)` is not
reachable from the entrance and the pathfinder finds no path. -/
theorem c1_counterexample :
    (mkDungeon 21 7 1 6).generate [] = Except.ok (c1lvl, []) ∧
    c1lvl.entrance = some (8, -7) ∧
    (c1lvl.rooms.map Room.center).head? = some (10, 3) ∧
    Dungeon.find_path c1lvl (8, -7) (10, 3) = none ∧
    ¬ Reaches c1lvl (8, -7) (10, 3) := by
  refine ⟨rfl, by rfl, by rfl, by rfl,
    not_reaches_of_not_walk _ _ _ (fun hw => absurd hw.1.2.2.1 (by decide)) (by decide)⟩

set_option maxRecDepth 100000 in
set_option maxHeartbeats 1000000 in
/-- Counterexample to claim C3 as stated: a heat jump from 0 to 3 crosses
the thresholds 1, 2 and 3, but the scan `break`s after unlocking the first
modifier, so only `increase_enemies` is active after the call and the
threshold-2 modifier is absent. -/
theorem c3_counterexample :
    (mkMgr 21 8).heat_level = 0 ∧ (mkMgr 21 8).active_modifiers = [] ∧
    (Modifier.mk "Stronger Enemies" "stronger_enemies" 2).min_heat ≤ 0 + 3 ∧
    (match (mkMgr 21 8).increase_heat 3 [] with
      | .ok (m, _) => some (m.heat_level, m.active_modifiers)
      | .error _ => none) =
      some (3, [⟨"More Enemies", "increase_enemies", 1⟩]) ∧
    Modifier.mk "Stronger Enemies" "stronger_enemies" 2 ∉
      [Modifier.mk "More Enemies" "increase_enemies" 1] :=
  ⟨rfl, rfl, by decide, by rfl, by decide⟩

/-- Counterexample to claim C6 as stated: starting on a trap tile (not a
wall, not walkable) next to a floor goal, the pathfinder returns the path
`[(0,0), (1,0)]` whose first cell is not walkable. -/
theorem c6_counterexample :
    Dungeon.find_path dC6 (0, 0) (1, 0) = some [(0, 0), (1, 0)] ∧
    walkTile (gget dC6.grid 0 0) = false ∧
    gget dC6.grid 0 0 ≠ Tile.wall :=
  ⟨rfl, rfl, by decide⟩

set_option maxRecDepth 8000 in
/-- Counterexample to claim C7 as stated: the source compares the
entrance/exit center distance against `max(width,height) // 3` (floored),
so on a 22×22 grid an exit at distance exactly 7 from the entrance is
accepted although `7 < 22/3` (`9·distSq = 441 < 484 = max²`). -/
theorem c7_counterexample :
    (mkDungeon 22 22 1 0).generate oracleC7 = Except.ok (c7lvl, []) ∧
    c7lvl.area_index = 0 ∧
    c7lvl.entrance = some (4, 4) ∧ c7lvl.exit = some (11, 4) ∧
    9 * distSq (4, 4) (11, 4) < (max (22 : Int) 22) ^ 2 :=
  ⟨rfl, by rfl, by rfl, by rfl, by decide⟩

/-- Counterexample to claim C8 as stated: on a level whose only floor cell
is the entrance, every bounded placement attempt fails and a full
trap-placement pass converts zero cells, not `2 + area_index = 2`. -/
theorem c8_counterexample :
    Dungeon.add_traps dC8 [] = Except.ok (dC8, []) ∧
    gget dC8.grid 1 1 = Tile.floor ∧
    (2 + dC8.area_index).toNat = 2 ∧
    trapCount dC8.grid = 0 :=
  ⟨rfl, rfl, rfl, rfl⟩
theorem generate_all_areas_active (m : Mgr) (pl : Int) (s : RS) (r : Mgr) (s' : RS)
    (h : m.generate_all_areas pl s = .ok (r, s')) :
    r.active_modifiers = m.active_modifiers := by
  unfold Mgr.generate_all_areas at h
  simp only [bind_run, pure_run, liftE_run] at h
  split at h
  · split at h
    · simp only [Except.ok.injEq, Prod.mk.injEq] at h
      rw [← h.1]
    · exact absurd h (by simp)
  · exact absurd h (by simp)

theorem increase_heat_eq (m : Mgr) (amt : Int) :
    m.increase_heat amt =
      match firstNewModifier (m.heat_level + amt) m.active_modifiers with
      | none => pure { m with heat_level := m.heat_level + amt }
      | some mod => Mgr.generate_all_areas
          { m with heat_level := m.heat_level + amt,
                   active_modifiers := m.active_modifiers ++ [mod] }
          m.player_level := rfl

theorem increase_heat_active (m : Mgr) (amt : Int) (s : RS) (r : Mgr) (s' : RS)
    (h : m.increase_heat amt s = .ok (r, s')) :
    r.active_modifiers = m.active_modifiers ∨
    ∃ mod, r.active_modifiers = m.active_modifiers ++ [mod] := by
  rw [increase_heat_eq] at h
  rcases hfm : firstNewModifier (m.heat_level + amt) m.active_modifiers with _ | mod <;>
    simp only [hfm] at h
  · rw [pure_run] at h
    simp only [Except.ok.injEq, Prod.mk.injEq] at h
    left
    rw [← h.1]
  · right
    exact ⟨mod, by rw [generate_all_areas_active _ _ _ _ _ h]⟩

/-- Claim C4: over any sequence of `increase_heat` calls, the
active-modifier set only grows — its size is non-decreasing and every
previously active modifier is still active afterwards. -/
theorem c4_theorem (amts : List Int) : ∀ (m : Mgr) (s : RS) (r : Mgr) (s' : RS),
    runHeatSeq m amts s = .ok (r, s') →
    m.active_modifiers.length ≤ r.active_modifiers.length ∧
    ∀ mod ∈ m.active_modifiers, mod ∈ r.active_modifiers := by
  induction amts with
  | nil =>
    intro m s r s' h
    unfold runHeatSeq at h
    rw [pure_run] at h
    simp only [Except.ok.injEq, Prod.mk.injEq] at h
    rw [← h.1]
    exact ⟨le_refl _, fun mod hm => hm⟩
  | cons a rest ih =>
    intro m s r s' h
    unfold runHeatSeq at h
    rcases hstep : Mgr.increase_heat m a s with e | p
    · simp only [bind_run, hstep] at h
      exact absurd h (by simp)
    · obtain ⟨m1, s1⟩ := p
      simp only [bind_run, hstep] at h
      obtain ⟨hlen, hmem⟩ := ih m1 s1 r s' h
      rcases increase_heat_active m a s m1 s1 hstep with hsame | ⟨mod, happ⟩
      · rw [hsame] at hlen hmem
        exact ⟨hlen, hmem⟩
      · constructor
        · refine le_trans ?_ hlen
          rw [happ]
          simp
        · intro mod' hm'
          exact hmem mod' (by rw [happ]; exact List.mem_append_left _ hm')

/-- Witness for C4 at a concrete input. -/
theorem c4_witness :
    runHeatSeq (mkMgr 5 5) [0] [] = Except.ok (mkMgr 5 5, []) ∧
    ((mkMgr 5 5).active_modifiers.length ≤ (mkMgr 5 5).active_modifiers.length ∧
     ∀ mod ∈ (mkMgr 5 5).active_modifiers, mod ∈ (mkMgr 5 5).active_modifiers) :=
  ⟨rfl, c4_theorem [0] (mkMgr 5 5) [] (mkMgr 5 5) [] rfl⟩

/-- Claim C3 (amended): when a heat jump crosses at least one not-yet-active
threshold, exactly the first such table entry is appended to the active set,
and exactly one world regeneration happens: the call equals a single
`generate_all_areas` of the once-extended manager. -/
theorem c3_theorem (m : Mgr) (amt : Int) (mod : Modifier)
    (hfm : firstNewModifier (m.heat_level + amt) m.active_modifiers = some mod) :
    m.increase_heat amt =
      Mgr.generate_all_areas
        { m with heat_level := m.heat_level + amt,
                 active_modifiers := m.active_modifiers ++ [mod] } m.player_level ∧
    ∀ s r s', m.increase_heat amt s = .ok (r, s') →
      r.active_modifiers = m.active_modifiers ++ [mod] := by
  have he := increase_heat_eq m amt
  simp only [hfm] at he
  refine ⟨he, fun s r s' h => ?_⟩
  rw [he] at h
  exact generate_all_areas_active _ _ _ _ _ h

/-- Witness for C3 (amended) at a concrete input. -/
theorem c3_witness :
    (mkMgr 21 8).increase_heat 3 =
      Mgr.generate_all_areas
        { mkMgr 21 8 with
          heat_level := (mkMgr 21 8).heat_level + 3,
          active_modifiers := (mkMgr 21 8).active_modifiers ++
            [⟨"More Enemies", "increase_enemies", 1⟩] }
        (mkMgr 21 8).player_level :=
  (c3_theorem (mkMgr 21 8) 3 ⟨"More Enemies", "increase_enemies", 1⟩ (by rfl)).1

/-- Claim C5: a move whose target cell is out of bounds or a wall returns
"blocked" and leaves the whole manager state unchanged. -/
theorem c5_theorem (m : Mgr) (dx dy : Int) (d : Dungeon) (p : Cell)
    (hd : listGetPy m.dungeons m.current_area = .ok d)
    (hp : m.player_pos = some p)
    (hblock : ¬ (0 ≤ p.1 + dx ∧ p.1 + dx < d.width ∧ 0 ≤ p.2 + dy ∧ p.2 + dy < d.height ∧
      gget d.grid (p.2 + dy) (p.1 + dx) ≠ Tile.wall)) :
    m.move_player dx dy = .ok (MoveRes.blocked, m) := by
  unfold Mgr.move_player
  simp only [hd, hp, bind, Except.bind]
  rw [if_neg hblock]

/-- Witness for C5 at a concrete input. -/
theorem c5_witness :
    listGetPy mgrC2.dungeons mgrC2.current_area = .ok (tinyDungeon 0) ∧
    Mgr.move_player mgrC2 0 1 = .ok (MoveRes.blocked, mgrC2) :=
  ⟨rfl, c5_theorem mgrC2 0 1 (tinyDungeon 0) (0, 0) rfl rfl (by decide)⟩

/-- Claim C10: stepping onto stairs-up in area 0, or stairs-down in the
last area, performs no area transition: the area index is unchanged and
the move resolves as ordinary movement onto the stairs cell. -/
theorem c10_theorem (m : Mgr) (dx dy : Int) (d : Dungeon) (p : Cell)
    (hd : listGetPy m.dungeons m.current_area = .ok d)
    (hp : m.player_pos = some p)
    (hin : 0 ≤ p.1 + dx ∧ p.1 + dx < d.width ∧ 0 ≤ p.2 + dy ∧ p.2 + dy < d.height)
    (hcase : (gget d.grid (p.2 + dy) (p.1 + dx) = Tile.stairsUp ∧ m.current_area = 0) ∨
             (gget d.grid (p.2 + dy) (p.1 + dx) = Tile.stairsDown ∧
              m.current_area = (m.dungeons.length : Int) - 1)) :
    ∃ res m', m.move_player dx dy = .ok (res, m') ∧
      m'.current_area = m.current_area ∧
      m'.player_pos = some (p.1 + dx, p.2 + dy) := by
  unfold Mgr.move_player
  simp only [hd, hp, bind, Except.bind]
  have hw : gget d.grid (p.2 + dy) (p.1 + dx) ≠ Tile.wall := by
    rcases hcase with ⟨ht, _⟩ | ⟨ht, _⟩ <;> simp [ht]
  rw [if_pos ⟨hin.1, hin.2.1, hin.2.2.1, hin.2.2.2, hw⟩]
  rcases hcase with ⟨ht, hca⟩ | ⟨ht, hca⟩
  · simp only [ht, reduceCtorEq, if_false, ite_false, hca]
    simp only [lt_irrefl, and_false, false_and, if_false, ite_false]
    rcases h1 : List.findIdx? (fun it => it.pos == (p.1 + dx, p.2 + dy)) d.items with _ | i
    · simp only [h1]
      rcases h2 : List.find? (fun e => e.pos == (p.1 + dx, p.2 + dy)) d.enemies with _ | e
      · simp only [h2]
        exact ⟨_, _, rfl, rfl, rfl⟩
      · simp only [h2]
        exact ⟨_, _, rfl, rfl, rfl⟩
    · simp only [h1]
      exact ⟨_, _, rfl, rfl, rfl⟩
  · simp only [ht, reduceCtorEq, if_false, ite_false, hca]
    simp only [lt_irrefl, sub_lt_self_iff, and_false, false_and, if_false, ite_false]
    rcases h1 : List.findIdx? (fun it => it.pos == (p.1 + dx, p.2 + dy)) d.items with _ | i
    · simp only [h1]
      rcases h2 : List.find? (fun e => e.pos == (p.1 + dx, p.2 + dy)) d.enemies with _ | e
      · simp only [h2]
        exact ⟨_, _, rfl, rfl, rfl⟩
      · simp only [h2]
        exact ⟨_, _, rfl, rfl, rfl⟩
    · simp only [h1]
      exact ⟨_, _, rfl, rfl, rfl⟩

/-- Witness for C10 at a concrete input. -/
theorem c10_witness :
    listGetPy mgrC10.dungeons mgrC10.current_area = .ok (stairsDungeon 0) ∧
    gget (stairsDungeon 0).grid 0 1 = Tile.stairsUp ∧ mgrC10.current_area = 0 ∧
    (∃ res m', mgrC10.move_player 1 0 = .ok (res, m') ∧
      m'.current_area = mgrC10.current_area ∧ m'.player_pos = some (1, 0)) :=
  ⟨rfl, rfl, rfl,
    c10_theorem mgrC10 1 0 (stairsDungeon 0) (0, 0) rfl rfl (by decide)
      (Or.inl ⟨by decide, rfl⟩)⟩

theorem npIdx_of_nonneg_lt (n : Nat) (i : Int) (h0 : 0 ≤ i) (h1 : i < n) :
    npIdx n i = some i.toNat := by
  unfold npIdx
  rw [if_pos ⟨h0, h1⟩]

theorem npIdx_lt (n : Nat) (i : Int) (k : Nat) (h : npIdx n i = some k) : k < n := by
  unfold npIdx at h
  split at h
  · next hc =>
    simp only [Option.some.injEq] at h
    omega
  · split at h
    · next h1 h2 =>
      simp only [Option.some.injEq] at h
      omega
    · exact absurd h (by simp)

theorem gget_facts (g : Grid) (y x : Int) (h : gget g y x ≠ Tile.wall) :
    0 ≤ y ∧ 0 ≤ x ∧ y.toNat < g.length ∧ x.toNat < (g.getD y.toNat []).length := by
  unfold gget at h
  by_cases hp : 0 ≤ y ∧ 0 ≤ x
  · rw [if_pos hp] at h
    refine ⟨hp.1, hp.2, ?_, ?_⟩
    · by_contra hge
      push_neg at hge
      rw [List.getD_eq_default _ _ hge] at h
      simp [List.getD] at h
    · by_contra hge
      push_neg at hge
      rw [List.getD_eq_default _ _ hge] at h
      exact h rfl
  · rw [if_neg hp] at h
    exact absurd rfl h

theorem gridSet_eq (g : Grid) (y x : Int) (t : Tile) (g' : Grid)
    (h : gridSet g y x t = .ok g') :
    ∃ yi xi, npIdx g.length y = some yi ∧ npIdx (g.getD yi []).length x = some xi ∧
      g' = g.set yi ((g.getD yi []).set xi t) := by
  unfold gridSet at h
  rcases hy : npIdx g.length y with _ | yi <;> rw [hy] at h
  · exact absurd h (by simp)
  · rcases hx : npIdx (g.getD yi []).length x with _ | xi <;> simp only [hx] at h
    · exact absurd h (by simp)
    · simp only [Except.ok.injEq] at h
      exact ⟨yi, xi, rfl, hx, h.symm⟩

theorem gridSet_length (g : Grid) (y x : Int) (t : Tile) (g' : Grid)
    (h : gridSet g y x t = .ok g') : g'.length = g.length := by
  obtain ⟨yi, xi, h1, h2, h3⟩ := gridSet_eq g y x t g' h
  rw [h3, List.length_set]

theorem gget_gridSet_cases (g : Grid) (y x : Int) (t : Tile) (g' : Grid)
    (h : gridSet g y x t = .ok g') (y' x' : Int) :
    gget g' y' x' = gget g y' x' ∨ gget g' y' x' = t := by
  obtain ⟨yi, xi, hyi, hxi, rfl⟩ := gridSet_eq g y x t g' h
  unfold gget
  by_cases hp : 0 ≤ y' ∧ 0 ≤ x'
  · rw [if_pos hp, if_pos hp]
    simp only [List.getD_eq_getElem?_getD]
    rcases eq_or_ne yi y'.toNat with he | hne
    · subst he
      have hylt : y'.toNat < g.length := npIdx_lt _ _ _ hyi
      rw [List.getElem?_set_self hylt]
      simp only [Option.getD_some]
      rcases eq_or_ne xi x'.toNat with hxe | hxne
      · subst hxe
        by_cases hxlt : x'.toNat < (g[y'.toNat]?.getD ([] : List Tile)).length
        · rw [List.getElem?_set_self hxlt]
          right
          rfl
        · push_neg at hxlt
          left
          rw [List.getElem?_eq_none (by rw [List.length_set]; exact hxlt),
            List.getElem?_eq_none hxlt]
      · rw [List.getElem?_set_ne hxne]
        left
        rfl
    · rw [List.getElem?_set_ne hne]
      left
      rfl
  · rw [if_neg hp, if_neg hp]
    left
    rfl

theorem gget_gridSet_write (g : Grid) (y x : Int) (t : Tile) (g' : Grid)
    (hread : gget g y x ≠ Tile.wall)
    (h : gridSet g y x t = .ok g') : gget g' y x = t := by
  obtain ⟨h0y, h0x, hylt, hxlt⟩ := gget_facts g y x hread
  obtain ⟨yi, xi, hyi, hxi, rfl⟩ := gridSet_eq g y x t g' h
  rw [npIdx_of_nonneg_lt _ _ h0y (by omega)] at hyi
  simp only [Option.some.injEq] at hyi
  subst hyi
  rw [npIdx_of_nonneg_lt _ _ h0x (by omega)] at hxi
  simp only [Option.some.injEq] at hxi
  subst hxi
  unfold gget
  rw [if_pos ⟨h0y, h0x⟩]
  simp only [List.getD_eq_getElem?_getD, List.getElem?_set_self hylt, Option.getD_some]
  rw [List.getElem?_set_self (by simpa using hxlt)]
  rfl

theorem gget_gridSet_other (g : Grid) (y x : Int) (t : Tile) (g' : Grid)
    (hread : gget g y x ≠ Tile.wall)
    (h : gridSet g y x t = .ok g') (y' x' : Int) (hne : ¬ (y' = y ∧ x' = x)) :
    gget g' y' x' = gget g y' x' := by
  obtain ⟨h0y, h0x, hylt, hxlt⟩ := gget_facts g y x hread
  obtain ⟨yi, xi, hyi, hxi, rfl⟩ := gridSet_eq g y x t g' h
  rw [npIdx_of_nonneg_lt _ _ h0y (by omega)] at hyi
  simp only [Option.some.injEq] at hyi
  subst hyi
  rw [npIdx_of_nonneg_lt _ _ h0x (by omega)] at hxi
  simp only [Option.some.injEq] at hxi
  subst hxi
  unfold gget
  by_cases hp : 0 ≤ y' ∧ 0 ≤ x'
  · rw [if_pos hp, if_pos hp]
    simp only [List.getD_eq_getElem?_getD]
    rcases eq_or_ne y'.toNat y.toNat with he | hvne
    · have hyy : y' = y := by omega
      have hxx : x' ≠ x := fun hc => hne ⟨hyy, hc⟩
      rw [he, List.getElem?_set_self hylt]
      simp only [Option.getD_some]
      rw [List.getElem?_set_ne (by omega)]
    · rw [List.getElem?_set_ne (fun hc => hvne hc.symm)]
  · rw [if_neg hp, if_neg hp]

theorem sum_map_set {α : Type} (f : α → Nat) :
    ∀ (l : List α) (i : Nat) (a : α) (h : i < l.length),
    ((l.set i a).map f).sum + f (l.get ⟨i, h⟩) = (l.map f).sum + f a := by
  intro l
  induction l with
  | nil => intro i a h; exact absurd h (by simp)
  | cons hd tl ih =>
    intro i a h
    cases i with
    | zero =>
      simp [List.set]
      omega
    | succ n =>
      simp only [List.set, List.map_cons, List.sum_cons, List.get]
      have := ih n a (by simpa using h)
      omega

theorem filter_length_set (p : Tile → Bool) :
    ∀ (l : List Tile) (i : Nat) (t : Tile) (h : i < l.length),
    ((l.set i t).filter p).length + (if p (l.get ⟨i, h⟩) then 1 else 0) =
      (l.filter p).length + (if p t then 1 else 0) := by
  intro l
  induction l with
  | nil => intro i t h; exact absurd h (by simp)
  | cons hd tl ih =>
    intro i t h
    cases i with
    | zero =>
      simp only [List.set, List.get, List.filter_cons]
      rcases Bool.eq_false_or_eq_true (p hd) with hp | hp <;>
        rcases Bool.eq_false_or_eq_true (p t) with ht | ht <;>
        simp [hp, ht] <;> omega
    | succ n =>
      simp only [List.set, List.get, List.filter_cons]
      have := ih n t (by simpa using h)
      simp only [List.get_eq_getElem] at this
      rcases Bool.eq_false_or_eq_true (p hd) with hp | hp <;>
        simp [hp] <;> omega

theorem trapCount_gridSet_floor (g : Grid) (y x : Int) (g' : Grid)
    (hfloor : gget g y x = Tile.floor)
    (h : gridSet g y x Tile.trap = .ok g') :
    trapCount g' = trapCount g + 1 := by
  have hread : gget g y x ≠ Tile.wall := by rw [hfloor]; simp
  obtain ⟨h0y, h0x, hylt, hxlt⟩ := gget_facts g y x hread
  obtain ⟨yi, xi, hyi, hxi, hg'⟩ := gridSet_eq g y x Tile.trap g' h
  rw [npIdx_of_nonneg_lt _ _ h0y (by omega)] at hyi
  simp only [Option.some.injEq] at hyi
  subst hyi
  rw [npIdx_of_nonneg_lt _ _ h0x (by omega)] at hxi
  simp only [Option.some.injEq] at hxi
  subst hxi
  have hrow : g.getD y.toNat [] = g.get ⟨y.toNat, hylt⟩ := by
    rw [List.getD_eq_getElem?_getD, List.getElem?_eq_getElem hylt]
    rfl
  have hcell : (g.getD y.toNat []).get ⟨x.toNat, hxlt⟩ = Tile.floor := by
    have hgg : gget g y x = (g.getD y.toNat []).getD x.toNat Tile.wall := by
      unfold gget
      rw [if_pos ⟨h0y, h0x⟩]
    rw [hgg, List.getD_eq_getElem?_getD, List.getElem?_eq_getElem hxlt] at hfloor
    exact hfloor
  have h1 := sum_map_set (fun row => (row.filter (fun t => t = Tile.trap)).length)
    g y.toNat ((g.getD y.toNat []).set x.toNat Tile.trap) hylt
  have h2 := filter_length_set (fun t => t = Tile.trap)
    (g.getD y.toNat []) x.toNat Tile.trap hxlt
  rw [hcell] at h2
  simp only [decide_eq_true_eq] at h1 h2
  unfold trapCount
  rw [hg']
  rw [← hrow] at h1
  simp only [reduceCtorEq, if_false, decide_eq_true_eq, if_true, reduceIte] at h1 h2
  omega

theorem trapAttempts_spec : ∀ (n : Nat) (d : Dungeon) (s : RS) (d' : Dungeon) (s' : RS),
    trapAttempts d n s = .ok (d', s') →
    (d' = { d with grid := d'.grid }) ∧
    (d'.grid = d.grid ∨
      ∃ x y, gget d.grid y x = Tile.floor ∧
        some (x, y) ≠ d.entrance ∧ some (x, y) ≠ d.exit ∧
        d.enemies.any (fun e => e.pos = (x, y)) = false ∧
        d.items.any (fun it => it.pos = (x, y)) = false ∧
        gridSet d.grid y x Tile.trap = .ok d'.grid) := by
  intro n
  induction n with
  | zero =>
    intro d s d' s' h
    unfold trapAttempts at h
    rw [pure_run] at h
    simp only [Except.ok.injEq, Prod.mk.injEq] at h
    rw [← h.1]
    exact ⟨rfl, Or.inl rfl⟩
  | succ n ih =>
    intro d s d' s' h
    unfold trapAttempts at h
    rcases hx : randint 1 (d.width - 2) s with e | px
    · simp only [bind_run, hx] at h
      exact absurd h (by simp)
    · obtain ⟨xv, s1⟩ := px
      simp only [bind_run, hx] at h
      rcases hy : randint 1 (d.height - 2) s1 with e | py
      · simp only [hy] at h
        exact absurd h (by simp)
      · obtain ⟨yv, s2⟩ := py
        simp only [hy] at h
        by_cases hfloor : gget d.grid yv xv = Tile.floor
        · rw [if_pos hfloor] at h
          by_cases hee : some (xv, yv) ≠ d.entrance ∧ some (xv, yv) ≠ d.exit
          · rw [if_pos hee] at h
            by_cases hen : d.enemies.any (fun e => e.pos = (xv, yv)) = true
            · rw [if_pos hen] at h
              exact ih d s2 d' s' h
            · rw [if_neg hen] at h
              by_cases hit : d.items.any (fun it => it.pos = (xv, yv)) = true
              · rw [if_pos hit] at h
                exact ih d s2 d' s' h
              · rw [if_neg hit] at h
                rcases hg : gridSet d.grid yv xv Tile.trap with e | g
                · simp only [bind_run, liftE_run, hg, Except.map] at h
                  exact absurd h (by simp)
                · simp only [bind_run, liftE_run, hg, Except.map, pure_run,
                    Except.ok.injEq, Prod.mk.injEq] at h
                  rw [← h.1]
                  refine ⟨rfl, Or.inr ⟨xv, yv, hfloor, hee.1, hee.2, ?_, ?_, hg⟩⟩
                  · simpa using hen
                  · simpa using hit
          · rw [if_neg hee] at h
            exact ih d s2 d' s' h
        · rw [if_neg hfloor] at h
          exact ih d s2 d' s' h

theorem trapOuter_spec : ∀ (n : Nat) (d : Dungeon) (s : RS) (d' : Dungeon) (s' : RS),
    trapOuter d n s = .ok (d', s') →
    (d' = { d with grid := d'.grid }) ∧
    trapCount d'.grid ≤ trapCount d.grid + n ∧
    (∀ y x, gget d'.grid y x ≠ gget d.grid y x →
      gget d.grid y x = Tile.floor ∧ gget d'.grid y x = Tile.trap ∧
      some (x, y) ≠ d.entrance ∧ some (x, y) ≠ d.exit ∧
      d.enemies.any (fun e => e.pos = (x, y)) = false ∧
      d.items.any (fun it => it.pos = (x, y)) = false) := by
  intro n
  induction n with
  | zero =>
    intro d s d' s' h
    unfold trapOuter at h
    rw [pure_run] at h
    simp only [Except.ok.injEq, Prod.mk.injEq] at h
    rw [← h.1]
    exact ⟨rfl, by omega, fun y x hne => absurd rfl hne⟩
  | succ n ih =>
    intro d s d' s' h
    unfold trapOuter at h
    rcases hstep : trapAttempts d 50 s with e | p
    · simp only [bind_run, hstep] at h
      exact absurd h (by simp)
    · obtain ⟨d1, s1⟩ := p
      simp only [bind_run, hstep] at h
      obtain ⟨hf1, hg1⟩ := trapAttempts_spec 50 d s d1 s1 hstep
      obtain ⟨hf2, hcnt2, hcell2⟩ := ih d1 s1 d' s' h
      have hent : d1.entrance = d.entrance := by rw [hf1]
      have hext : d1.exit = d.exit := by rw [hf1]
      have henl : d1.enemies = d.enemies := by rw [hf1]
      have hitl : d1.items = d.items := by rw [hf1]
      refine ⟨?_, ?_, ?_⟩
      · rw [hf2, hf1]
      · rcases hg1 with hsame | ⟨xv, yv, hfloor, _, _, _, _, hgs⟩
        · rw [hsame] at hcnt2
          omega
        · have := trapCount_gridSet_floor d.grid yv xv d1.grid hfloor hgs
          omega
      · intro y x hne
        rcases hg1 with hsame | ⟨xv, yv, hfloor, he1, he2, he3, he4, hgs⟩
        · rw [hsame] at hcell2
          have := hcell2 y x hne
          rw [hent, hext, henl, hitl] at this
          exact this
        · have hnw : gget d.grid yv xv ≠ Tile.wall := by rw [hfloor]; simp
          by_cases hc : y = yv ∧ x = xv
          · obtain ⟨rfl, rfl⟩ := hc
            have hd1 : gget d1.grid y x = Tile.trap := gget_gridSet_write _ _ _ _ _ hnw hgs
            have hd' : gget d'.grid y x = Tile.trap := by
              by_cases hch : gget d'.grid y x = gget d1.grid y x
              · rw [hch, hd1]
              · have := (hcell2 y x hch).1
                rw [hd1] at this
                exact absurd this (by simp)
            exact ⟨hfloor, hd', he1, he2, he3, he4⟩
          · have hunch : gget d1.grid y x = gget d.grid y x :=
              gget_gridSet_other _ _ _ _ _ hnw hgs y x hc
            have hne1 : gget d'.grid y x ≠ gget d1.grid y x := by
              rw [hunch]
              exact hne
            have := hcell2 y x hne1
            rw [hent, hext, henl, hitl, hunch] at this
            exact this

/-- Claim C8 (amended): one full trap-placement pass converts at most
`2 + areaIndex` cells (the bounded random attempts can fail), every
converted cell was a floor tile that is not the entrance, not the exit and
not occupied by any enemy or item spawn, and nothing else of the level
changes. -/
theorem c8_theorem (d : Dungeon) (s : RS) (d' : Dungeon) (s' : RS)
    (h : d.add_traps s = .ok (d', s')) :
    d' = { d with grid := d'.grid } ∧
    trapCount d'.grid ≤ trapCount d.grid + (2 + d.area_index).toNat ∧
    (∀ y x, gget d'.grid y x ≠ gget d.grid y x →
      gget d.grid y x = Tile.floor ∧ gget d'.grid y x = Tile.trap ∧
      some (x, y) ≠ d.entrance ∧ some (x, y) ≠ d.exit ∧
      (∀ e ∈ d.enemies, e.pos ≠ (x, y)) ∧ (∀ it ∈ d.items, it.pos ≠ (x, y))) := by
  unfold Dungeon.add_traps at h
  obtain ⟨hf, hcnt, hcell⟩ := trapOuter_spec _ d s d' s' h
  refine ⟨hf, hcnt, fun y x hne => ?_⟩
  obtain ⟨h1, h2, h3, h4, h5, h6⟩ := hcell y x hne
  refine ⟨h1, h2, h3, h4, ?_, ?_⟩
  · intro e he
    have := List.any_eq_false.mp h5 e he
    simpa using this
  · intro it hit
    have := List.any_eq_false.mp h6 it hit
    simpa using this

/-- Witness for C8 (amended) at a concrete input. -/
theorem c8_witness :
    Dungeon.add_traps dC8 [] = Except.ok (dC8, []) ∧
    (dC8 = { dC8 with grid := dC8.grid } ∧
     trapCount dC8.grid ≤ trapCount dC8.grid + (2 + dC8.area_index).toNat ∧
     (∀ y x, gget dC8.grid y x ≠ gget dC8.grid y x →
       gget dC8.grid y x = Tile.floor ∧ gget dC8.grid y x = Tile.trap ∧
       some (x, y) ≠ dC8.entrance ∧ some (x, y) ≠ dC8.exit ∧
       (∀ e ∈ dC8.enemies, e.pos ≠ (x, y)) ∧ (∀ it ∈ dC8.items, it.pos ≠ (x, y)))) :=
  ⟨rfl, c8_theorem dC8 [] dC8 [] rfl⟩

theorem randint_bounds (lo hi : Int) (s : RS) (v : Int) (s' : RS)
    (h : randint lo hi s = .ok (v, s')) : lo ≤ v ∧ v ≤ hi := by
  unfold randint at h
  split at h
  · rw [mthrow_run] at h
    exact absurd h (by simp)
  · next hle =>
    simp only [bind_run, nextNat_run, pure_run, Except.ok.injEq, Prod.mk.injEq] at h
    have hpos : 0 < hi - lo + 1 := by omega
    have h1 : 0 ≤ ((s.headD 0 : Nat) : Int) % (hi - lo + 1) :=
      Int.emod_nonneg _ (by omega)
    have h2 : ((s.headD 0 : Nat) : Int) % (hi - lo + 1) < hi - lo + 1 :=
      Int.emod_lt_of_pos _ hpos
    omega

theorem interiorDraw_bounds (lo extent : Int) (s : RS) (v : Int) (s' : RS)
    (h : interiorDraw lo extent s = .ok (v, s')) :
    lo + 1 ≤ v ∧ v ≤ lo + extent - 2 :=
  randint_bounds _ _ _ _ _ h

theorem placeEnemiesLoop_spec : ∀ (n : Nat) (r : Room) (dl : Int) (s : RS) (r' : Room) (s' : RS),
    placeEnemiesLoop r dl n s = .ok (r', s') →
    r' = { r with enemies := r'.enemies } ∧
    ∀ e ∈ r'.enemies, e ∈ r.enemies ∨ inInterior r e.pos := by
  intro n
  induction n with
  | zero =>
    intro r dl s r' s' h
    unfold placeEnemiesLoop at h
    rw [pure_run] at h
    simp only [Except.ok.injEq, Prod.mk.injEq] at h
    rw [← h.1]
    exact ⟨rfl, fun e he => Or.inl he⟩
  | succ n ih =>
    intro r dl s r' s' h
    unfold placeEnemiesLoop at h
    rcases hx : interiorDraw r.x r.width s with e | px
    · simp only [bind_run, hx] at h
      exact absurd h (by simp)
    · obtain ⟨xv, s1⟩ := px
      simp only [bind_run, hx] at h
      rcases hy : interiorDraw r.y r.height s1 with e | py
      · simp only [hy] at h
        exact absurd h (by simp)
      · obtain ⟨yv, s2⟩ := py
        simp only [hy] at h
        rcases hdl : randint (-1) 1 s2 with e | pdl
        · simp only [hdl] at h
          exact absurd h (by simp)
        · obtain ⟨dlv, s3⟩ := pdl
          simp only [hdl] at h
          obtain ⟨hf, hmem⟩ := ih _ dl _ r' s' h
          have hx' := interiorDraw_bounds _ _ _ _ _ hx
          have hy' := interiorDraw_bounds _ _ _ _ _ hy
          constructor
          · rw [hf]
          · intro e he
            rcases hmem e he with hin | hint
            · rcases List.mem_append.mp hin with hold | hnew
              · exact Or.inl hold
              · right
                simp only [List.mem_singleton] at hnew
                subst hnew
                unfold inInterior
                dsimp only
                exact ⟨by omega, by omega, by omega, by omega⟩
            · exact Or.inr hint

theorem place_enemies_spec (r : Room) (dl ai : Int) (s : RS) (r' : Room) (s' : RS)
    (h : r.place_enemies dl ai s = .ok (r', s'))
    (hboss : r.room_type = "boss" → 3 ≤ r.width ∧ 3 ≤ r.height) :
    ∀ e ∈ r'.enemies, e ∈ r.enemies ∨ inInterior r e.pos := by
  unfold Room.place_enemies at h
  split at h
  · next hb =>
    rw [pure_run] at h
    simp only [Except.ok.injEq, Prod.mk.injEq] at h
    obtain ⟨hw3, hh3⟩ := hboss hb
    intro e he
    rw [← h.1] at he
    simp only at he
    rcases List.mem_append.mp he with hold | hnew
    · exact Or.inl hold
    · right
      simp only [List.mem_singleton] at hnew
      subst hnew
      unfold inInterior Room.center
      dsimp only
      refine ⟨by omega, by omega, by omega, by omega⟩
  · simp only [bind_run] at h
    split at h
    · exact (placeEnemiesLoop_spec _ _ _ _ _ _ h).2
    · exact absurd h (by simp)

theorem place_items_spec (r : Room) (dl : Int) (s : RS) (r' : Room) (s' : RS)
    (h : r.place_items dl s = .ok (r', s')) :
    ∀ it ∈ r'.items, it ∈ r.items ∨ inInterior r it.pos := by
  unfold Room.place_items at h
  rcases hr : rand100 s with e | pr
  · simp only [bind_run, hr] at h
    exact absurd h (by simp)
  · obtain ⟨rv, s1⟩ := pr
    simp only [bind_run, hr] at h
    by_cases hroll : rv < (if r.room_type = "boss" then 100
        else if r.room_type = "special" then 60 else 30)
    · rw [if_pos hroll] at h
      rcases hx : interiorDraw r.x r.width s1 with e | px
      · simp only [bind_run, hx] at h
        exact absurd h (by simp)
      · obtain ⟨xv, s2⟩ := px
        simp only [bind_run, hx] at h
        rcases hy : interiorDraw r.y r.height s2 with e | py
        · simp only [hy] at h
          exact absurd h (by simp)
        · obtain ⟨yv, s3⟩ := py
          simp only [hy] at h
          rcases hrr : rand100 s3 with e | prr
          · simp only [hrr] at h
            exact absurd h (by simp)
          · obtain ⟨rrv, s4⟩ := prr
            simp only [hrr, pure_run, Except.ok.injEq, Prod.mk.injEq] at h
            have hx' := interiorDraw_bounds _ _ _ _ _ hx
            have hy' := interiorDraw_bounds _ _ _ _ _ hy
            intro it hit
            rw [← h.1] at hit
            simp only at hit
            rcases List.mem_append.mp hit with hold | hnew
            · exact Or.inl hold
            · right
              simp only [List.mem_singleton] at hnew
              subst hnew
              unfold inInterior
              dsimp only
              exact ⟨by omega, by omega, by omega, by omega⟩
    · rw [if_neg hroll, pure_run] at h
      simp only [Except.ok.injEq, Prod.mk.injEq] at h
      intro it hit
      rw [← h.1] at hit
      exact Or.inl hit

theorem add_special_feature_spec (r : Room) (ai : Int) (s : RS) (r' : Room) (s' : RS)
    (h : r.add_special_feature ai s = .ok (r', s'))
    (hw : 3 ≤ r.width) (hh : 3 ≤ r.height) :
    ∀ f ∈ r'.features, f ∈ r.features ∨ inInterior r f.pos := by
  unfold Room.add_special_feature at h
  split at h
  · rcases hc : randchoice ["altar", "shrine", "fountain", "statue", "library"] s
        with e | pc
    · simp only [bind_run, hc] at h
      exact absurd h (by simp)
    · obtain ⟨cv, s1⟩ := pc
      simp only [bind_run, hc, pure_run, Except.ok.injEq, Prod.mk.injEq] at h
      intro f hf
      rw [← h.1] at hf
      simp only at hf
      rcases List.mem_append.mp hf with hold | hnew
      · exact Or.inl hold
      · right
        simp only [List.mem_singleton] at hnew
        subst hnew
        unfold inInterior Room.center
        dsimp only
        exact ⟨by omega, by omega, by omega, by omega⟩
  · rw [pure_run] at h
    simp only [Except.ok.injEq, Prod.mk.injEq] at h
    intro f hf
    rw [← h.1] at hf
    exact Or.inl hf

theorem incEnemiesOnce_spec (d : Dungeon) (s : RS) (d' : Dungeon) (s' : RS)
    (h : incEnemiesOnce d s = .ok (d', s')) :
    d' = { d with enemies := d'.enemies } ∧
    ∀ e ∈ d'.enemies, e ∈ d.enemies ∨ ∃ room ∈ d.rooms, inInterior room e.pos := by
  unfold incEnemiesOnce at h
  rcases hf : d.rooms.find? (fun room =>
      room.room_type != "entrance" && room.room_type != "exit") with _ | room
  · simp only [hf, pure_run, Except.ok.injEq, Prod.mk.injEq] at h
    rw [← h.1]
    exact ⟨rfl, fun e he => Or.inl he⟩
  · simp only [hf] at h
    have hmem : room ∈ d.rooms := List.mem_of_find?_eq_some hf
    rcases hx : interiorDraw room.x room.width s with e | px
    · simp only [bind_run, hx] at h
      exact absurd h (by simp)
    · obtain ⟨xv, s1⟩ := px
      simp only [bind_run, hx] at h
      rcases hy : interiorDraw room.y room.height s1 with e | py
      · simp only [hy] at h
        exact absurd h (by simp)
      · obtain ⟨yv, s2⟩ := py
        simp only [hy] at h
        rcases hdl : randint (-1) 1 s2 with e | pdl
        · simp only [hdl] at h
          exact absurd h (by simp)
        · obtain ⟨dlv, s3⟩ := pdl
          simp only [hdl, pure_run, Except.ok.injEq, Prod.mk.injEq] at h
          have hx' := interiorDraw_bounds _ _ _ _ _ hx
          have hy' := interiorDraw_bounds _ _ _ _ _ hy
          rw [← h.1]
          refine ⟨rfl, fun e he => ?_⟩
          simp only at he
          rcases List.mem_append.mp he with hold | hnew
          · exact Or.inl hold
          · right
            simp only [List.mem_singleton] at hnew
            subst hnew
            refine ⟨room, hmem, ?_⟩
            unfold inInterior
            dsimp only
            exact ⟨by omega, by omega, by omega, by omega⟩

theorem incEnemiesLoop_spec : ∀ (n : Nat) (d : Dungeon) (s : RS) (d' : Dungeon) (s' : RS),
    incEnemiesLoop d n s = .ok (d', s') →
    d' = { d with enemies := d'.enemies } ∧
    ∀ e ∈ d'.enemies, e ∈ d.enemies ∨ ∃ room ∈ d.rooms, inInterior room e.pos := by
  intro n
  induction n with
  | zero =>
    intro d s d' s' h
    unfold incEnemiesLoop at h
    rw [pure_run] at h
    simp only [Except.ok.injEq, Prod.mk.injEq] at h
    rw [← h.1]
    exact ⟨rfl, fun e he => Or.inl he⟩
  | succ n ih =>
    intro d s d' s' h
    unfold incEnemiesLoop at h
    rcases hstep : incEnemiesOnce d s with e | p
    · simp only [bind_run, hstep] at h
      exact absurd h (by simp)
    · obtain ⟨d1, s1⟩ := p
      simp only [bind_run, hstep] at h
      obtain ⟨hf1, hm1⟩ := incEnemiesOnce_spec d s d1 s1 hstep
      obtain ⟨hf2, hm2⟩ := ih d1 s1 d' s' h
      have hrooms : d1.rooms = d.rooms := by rw [hf1]
      have hen : d1.enemies.length = d1.enemies.length := rfl
      refine ⟨by rw [hf2, hf1], fun e he => ?_⟩
      rcases hm2 e he with h1 | ⟨room, hr, hint⟩
      · rcases hm1 e h1 with h2 | ⟨room, hr, hint⟩
        · exact Or.inl h2
        · exact Or.inr ⟨room, hr, hint⟩
      · exact Or.inr ⟨room, by rw [hrooms] at hr; exact hr, hint⟩

theorem popRandomItems_spec : ∀ (n : Nat) (d : Dungeon) (s : RS) (d' : Dungeon) (s' : RS),
    popRandomItems d n s = .ok (d', s') →
    d' = { d with items := d'.items } ∧
    ∀ it ∈ d'.items, it ∈ d.items := by
  intro n
  induction n with
  | zero =>
    intro d s d' s' h
    unfold popRandomItems at h
    rw [pure_run] at h
    simp only [Except.ok.injEq, Prod.mk.injEq] at h
    rw [← h.1]
    exact ⟨rfl, fun it hit => hit⟩
  | succ n ih =>
    intro d s d' s' h
    unfold popRandomItems at h
    split at h
    · obtain ⟨hf, hm⟩ := ih d s d' s' h
      exact ⟨hf, hm⟩
    · rcases hi : randrange d.items.length s with e | pi
      · simp only [bind_run, hi] at h
        exact absurd h (by simp)
      · obtain ⟨iv, s1⟩ := pi
        simp only [bind_run, hi] at h
        obtain ⟨hf, hm⟩ := ih _ s1 d' s' h
        refine ⟨by rw [hf], fun it hit => ?_⟩
        have := hm it hit
        simp only at this
        exact List.mem_of_mem_eraseIdx this

theorem eliteLoop_spec : ∀ (n : Nat) (d : Dungeon) (s : RS) (d' : Dungeon) (s' : RS),
    eliteLoop d n s = .ok (d', s') →
    d' = { d with enemies := d'.enemies } ∧
    ∀ e ∈ d'.enemies, ∃ e0 ∈ d.enemies, e0.pos = e.pos := by
  intro n
  induction n with
  | zero =>
    intro d s d' s' h
    unfold eliteLoop at h
    rw [pure_run] at h
    simp only [Except.ok.injEq, Prod.mk.injEq] at h
    rw [← h.1]
    exact ⟨rfl, fun e he => ⟨e, he, rfl⟩⟩
  | succ n ih =>
    intro d s d' s' h
    unfold eliteLoop at h
    split at h
    · exact ih d s d' s' h
    · rcases hi : randrange d.enemies.length s with e | pi
      · simp only [bind_run, hi] at h
        exact absurd h (by simp)
      · obtain ⟨iv, s1⟩ := pi
        simp only [bind_run, hi] at h
        by_cases het : (d.enemies.getD iv default).etype ≠ "boss"
        · rw [if_pos het] at h
          obtain ⟨hf, hm⟩ := ih _ s1 d' s' h
          refine ⟨by rw [hf], fun e he => ?_⟩
          obtain ⟨e0, he0, hpos⟩ := hm e he
          simp only at he0
          rcases List.mem_or_eq_of_mem_set he0 with hin | heq
          · exact ⟨e0, hin, hpos⟩
          · by_cases hlt : iv < d.enemies.length
            · refine ⟨d.enemies.getD iv default, ?_, ?_⟩
              · rw [List.getD_eq_getElem?_getD, List.getElem?_eq_getElem hlt]
                exact List.getElem_mem hlt
              · rw [← hpos, heq]
            · rw [List.set_eq_of_length_le (by omega)] at he0
              exact ⟨e0, he0, hpos⟩
        · rw [if_neg het] at h
          exact ih d s1 d' s' h

theorem doubleBossRoom_spec (d : Dungeon) (room : Room) (s : RS) (d' : Dungeon) (s' : RS)
    (h : doubleBossRoom d room s = .ok (d', s'))
    (h7w : 7 ≤ room.width) (h7h : 7 ≤ room.height) :
    d' = { d with enemies := d'.enemies } ∧
    ∀ e ∈ d'.enemies, e ∈ d.enemies ∨ inInterior room e.pos := by
  unfold doubleBossRoom at h
  rcases hf : room.enemies.find? (fun e => e.etype == "boss") with _ | enemy
  · simp only [hf, pure_run, Except.ok.injEq, Prod.mk.injEq] at h
    rw [← h.1]
    exact ⟨rfl, fun e he => Or.inl he⟩
  · simp only [hf] at h
    rcases hx : randint (-2) 2 s with e | px
    · simp only [bind_run, hx] at h
      exact absurd h (by simp)
    · obtain ⟨ox, s1⟩ := px
      simp only [bind_run, hx] at h
      rcases hy : randint (-2) 2 s1 with e | py
      · simp only [hy] at h
        exact absurd h (by simp)
      · obtain ⟨oy, s2⟩ := py
        simp only [hy, pure_run, Except.ok.injEq, Prod.mk.injEq] at h
        have hx' := randint_bounds _ _ _ _ _ hx
        have hy' := randint_bounds _ _ _ _ _ hy
        rw [← h.1]
        refine ⟨rfl, fun e he => ?_⟩
        simp only at he
        rcases List.mem_append.mp he with hold | hnew
        · exact Or.inl hold
        · right
          simp only [List.mem_singleton] at hnew
          subst hnew
          unfold inInterior Room.center
          dsimp only
          exact ⟨by omega, by omega, by omega, by omega⟩

theorem doubleBossLoop_spec : ∀ (rooms : List Room) (d : Dungeon) (s : RS)
    (d' : Dungeon) (s' : RS),
    doubleBossLoop d rooms s = .ok (d', s') →
    (∀ room ∈ rooms, room.room_type = "boss" → 7 ≤ room.width ∧ 7 ≤ room.height) →
    d' = { d with enemies := d'.enemies } ∧
    ∀ e ∈ d'.enemies, e ∈ d.enemies ∨ ∃ room ∈ rooms, inInterior room e.pos := by
  intro rooms
  induction rooms with
  | nil =>
    intro d s d' s' h hsz
    unfold doubleBossLoop at h
    rw [pure_run] at h
    simp only [Except.ok.injEq, Prod.mk.injEq] at h
    rw [← h.1]
    exact ⟨rfl, fun e he => Or.inl he⟩
  | cons room rest ih =>
    intro d s d' s' h hsz
    unfold doubleBossLoop at h
    by_cases hb : room.room_type = "boss"
    · rw [if_pos hb] at h
      rcases hstep : doubleBossRoom d room s with e | p
      · simp only [bind_run, hstep] at h
        exact absurd h (by simp)
      · obtain ⟨d1, s1⟩ := p
        simp only [bind_run, hstep] at h
        obtain ⟨hsw, hsh⟩ := hsz room (List.mem_cons_self _ _) hb
        obtain ⟨hf1, hm1⟩ := doubleBossRoom_spec d room s d1 s1 hstep hsw hsh
        obtain ⟨hf2, hm2⟩ := ih d1 s1 d' s' h
          (fun r hr hbr => hsz r (List.mem_cons_of_mem _ hr) hbr)
        refine ⟨by rw [hf2, hf1], fun e he => ?_⟩
        rcases hm2 e he with h1 | ⟨r, hr, hint⟩
        · have he1 : e ∈ d1.enemies := h1
          rcases hm1 e he1 with h2 | hint
          · exact Or.inl h2
          · exact Or.inr ⟨room, List.mem_cons_self _ _, hint⟩
        · exact Or.inr ⟨r, List.mem_cons_of_mem _ hr, hint⟩
    · rw [if_neg hb] at h
      simp only [bind_run, pure_run] at h
      obtain ⟨hf2, hm2⟩ := ih d s d' s' h
        (fun r hr hbr => hsz r (List.mem_cons_of_mem _ hr) hbr)
      refine ⟨hf2, fun e he => ?_⟩
      rcases hm2 e he with h1 | ⟨r, hr, hint⟩
      · exact Or.inl h1
      · exact Or.inr ⟨r, List.mem_cons_of_mem _ hr, hint⟩

theorem applyMod_spec (d : Dungeon) (mod : Modifier) (s : RS) (d' : Dungeon) (s' : RS)
    (h : applyMod d mod s = .ok (d', s'))
    (hboss : ∀ room ∈ d.rooms, room.room_type = "boss" → 7 ≤ room.width ∧ 7 ≤ room.height) :
    d'.rooms = d.rooms ∧
    (∀ e ∈ d'.enemies, (∃ e0 ∈ d.enemies, e0.pos = e.pos) ∨
      ∃ room ∈ d.rooms, inInterior room e.pos) ∧
    (∀ it ∈ d'.items, ∃ it0 ∈ d.items, it0.pos = it.pos) := by
  unfold applyMod at h
  by_cases h1 : mod.effect = "increase_enemies"
  · rw [if_pos h1] at h
    obtain ⟨hf, hm⟩ := incEnemiesLoop_spec _ d s d' s' h
    refine ⟨by rw [hf], fun e he => ?_, fun it hit => ?_⟩
    · rcases hm e he with hold | hint
      · exact Or.inl ⟨e, hold, rfl⟩
      · exact Or.inr hint
    · rw [hf] at hit
      exact ⟨it, hit, rfl⟩
  rw [if_neg h1] at h
  by_cases h2 : mod.effect = "stronger_enemies"
  · rw [if_pos h2, pure_run] at h
    simp only [Except.ok.injEq, Prod.mk.injEq] at h
    rw [← h.1]
    refine ⟨rfl, fun e he => ?_, fun it hit => ⟨it, hit, rfl⟩⟩
    simp only [List.mem_map] at he
    obtain ⟨e0, he0, rfl⟩ := he
    exact Or.inl ⟨e0, he0, rfl⟩
  rw [if_neg h2] at h
  by_cases h3 : mod.effect = "more_traps"
  · rw [if_pos h3] at h
    rcases ht1 : d.add_traps s with e | p1
    · simp only [bind_run, ht1] at h
      exact absurd h (by simp)
    · obtain ⟨d1, s1⟩ := p1
      simp only [bind_run, ht1] at h
      have hf1 := (trapOuter_spec _ d s d1 s1 ht1).1
      have hf2 := (trapOuter_spec _ d1 s1 d' s' h).1
      refine ⟨by rw [hf2, hf1], fun e he => ?_, fun it hit => ?_⟩
      · rw [hf2, hf1] at he
        exact Or.inl ⟨e, he, rfl⟩
      · rw [hf2, hf1] at hit
        exact ⟨it, hit, rfl⟩
  rw [if_neg h3] at h
  by_cases h4 : mod.effect = "less_items"
  · rw [if_pos h4] at h
    split at h
    · obtain ⟨hf, hm⟩ := popRandomItems_spec _ d s d' s' h
      refine ⟨by rw [hf], fun e he => ?_, fun it hit => ⟨it, hm it hit, rfl⟩⟩
      rw [hf] at he
      exact Or.inl ⟨e, he, rfl⟩
    · rw [pure_run] at h
      simp only [Except.ok.injEq, Prod.mk.injEq] at h
      rw [← h.1]
      exact ⟨rfl, fun e he => Or.inl ⟨e, he, rfl⟩, fun it hit => ⟨it, hit, rfl⟩⟩
  rw [if_neg h4] at h
  by_cases h5 : mod.effect = "elite_enemies"
  · rw [if_pos h5] at h
    obtain ⟨hf, hm⟩ := eliteLoop_spec _ d s d' s' h
    refine ⟨by rw [hf], fun e he => ?_, fun it hit => ?_⟩
    · exact Or.inl (hm e he)
    · rw [hf] at hit
      exact ⟨it, hit, rfl⟩
  rw [if_neg h5] at h
  by_cases h6 : mod.effect = "double_bosses"
  · rw [if_pos h6] at h
    obtain ⟨hf, hm⟩ := doubleBossLoop_spec d.rooms d s d' s' h
      (fun r hr hbr => hboss r hr hbr)
    refine ⟨by rw [hf], fun e he => ?_, fun it hit => ?_⟩
    · rcases hm e he with hold | hint
      · exact Or.inl ⟨e, hold, rfl⟩
      · exact Or.inr hint
    · rw [hf] at hit
      exact ⟨it, hit, rfl⟩
  rw [if_neg h6] at h
  by_cases h7 : mod.effect = "extreme_mode"
  · rw [if_pos h7] at h
    rcases ht1 : d.add_traps s with e | p1
    · simp only [bind_run, ht1] at h
      exact absurd h (by simp)
    · obtain ⟨d1, s1⟩ := p1
      simp only [bind_run, ht1] at h
      rcases ht2 : d1.add_traps s1 with e | p2
      · simp only [ht2] at h
        exact absurd h (by simp)
      · obtain ⟨d2, s2⟩ := p2
        simp only [ht2] at h
        have hf1 := (trapOuter_spec _ d s d1 s1 ht1).1
        have hf2 := (trapOuter_spec _ d1 s1 d2 s2 ht2).1
        have hen2 : d2.enemies = d.enemies := by rw [hf2, hf1]
        have hit2 : d2.items = d.items := by rw [hf2, hf1]
        have hrm2 : d2.rooms = d.rooms := by rw [hf2, hf1]
        split at h
        · obtain ⟨hf, hm⟩ := popRandomItems_spec _ _ s2 d' s' h
          refine ⟨?_, fun e he => ?_, fun it hit => ?_⟩
          · rw [hf]
            simp only
            exact hrm2
          · rw [hf] at he
            simp only at he
            rw [hen2] at he
            simp only [List.mem_map] at he
            obtain ⟨e0, he0, rfl⟩ := he
            exact Or.inl ⟨e0, he0, rfl⟩
          · have := hm it hit
            simp only at this
            rw [hit2] at this
            exact ⟨it, this, rfl⟩
        · rw [pure_run] at h
          simp only [Except.ok.injEq, Prod.mk.injEq] at h
          rw [← h.1]
          simp only
          refine ⟨hrm2, fun e he => ?_, fun it hit => ?_⟩
          · rw [hen2] at he
            simp only [List.mem_map] at he
            obtain ⟨e0, he0, rfl⟩ := he
            exact Or.inl ⟨e0, he0, rfl⟩
          · rw [hit2] at hit
            exact ⟨it, hit, rfl⟩
  rw [if_neg h7, pure_run] at h
  simp only [Except.ok.injEq, Prod.mk.injEq] at h
  rw [← h.1]
  exact ⟨rfl, fun e he => Or.inl ⟨e, he, rfl⟩, fun it hit => ⟨it, hit, rfl⟩⟩

theorem applyModsLoop_spec : ∀ (mods : List Modifier) (d : Dungeon) (s : RS)
    (d' : Dungeon) (s' : RS),
    applyModsLoop d mods s = .ok (d', s') →
    (∀ room ∈ d.rooms, room.room_type = "boss" → 7 ≤ room.width ∧ 7 ≤ room.height) →
    d'.rooms = d.rooms ∧
    (∀ e ∈ d'.enemies, (∃ e0 ∈ d.enemies, e0.pos = e.pos) ∨
      ∃ room ∈ d.rooms, inInterior room e.pos) ∧
    (∀ it ∈ d'.items, ∃ it0 ∈ d.items, it0.pos = it.pos) := by
  intro mods
  induction mods with
  | nil =>
    intro d s d' s' h hboss
    unfold applyModsLoop at h
    rw [pure_run] at h
    simp only [Except.ok.injEq, Prod.mk.injEq] at h
    rw [← h.1]
    exact ⟨rfl, fun e he => Or.inl ⟨e, he, rfl⟩, fun it hit => ⟨it, hit, rfl⟩⟩
  | cons mod rest ih =>
    intro d s d' s' h hboss
    unfold applyModsLoop at h
    rcases hstep : applyMod d mod s with e | p
    · simp only [bind_run, hstep] at h
      exact absurd h (by simp)
    · obtain ⟨d1, s1⟩ := p
      simp only [bind_run, hstep] at h
      obtain ⟨hr1, he1, hi1⟩ := applyMod_spec d mod s d1 s1 hstep hboss
      obtain ⟨hr2, he2, hi2⟩ := ih d1 s1 d' s' h (by rw [hr1]; exact hboss)
      refine ⟨by rw [hr2, hr1], fun e he => ?_, fun it hit => ?_⟩
      · rcases he2 e he with ⟨e1, he1m, hp1⟩ | ⟨room, hr, hint⟩
        · rcases he1 e1 he1m with ⟨e0, he0, hp0⟩ | ⟨room, hr, hint⟩
          · exact Or.inl ⟨e0, he0, by rw [hp0, hp1]⟩
          · exact Or.inr ⟨room, hr, by rw [← hp1]; exact hint⟩
        · exact Or.inr ⟨room, by rw [hr1] at hr; exact hr, hint⟩
      · obtain ⟨it1, hit1, hp1⟩ := hi2 it hit
        obtain ⟨it0, hit0, hp0⟩ := hi1 it1 hit1
        exact ⟨it0, hit0, by rw [hp0, hp1]⟩

/-- Claim C9: every enemy, item and feature spawn record created by room
population (`place_enemies`, `place_items`, `add_special_feature`) or by
modifier application (`_apply_heat_modifiers`) lies strictly inside its
owning room's interior (`x ∈ [room.x+1, room.x+room.width-2]`,
`y ∈ [room.y+1, room.y+room.height-2]`); the size hypotheses on boss rooms
are satisfied by the program's only boss room, the fixed 10×10 throne room. -/
theorem c9_theorem :
    (∀ (r : Room) (dl ai : Int) (s : RS) (r' : Room) (s' : RS),
      r.place_enemies dl ai s = .ok (r', s') →
      (r.room_type = "boss" → 3 ≤ r.width ∧ 3 ≤ r.height) →
      ∀ e ∈ r'.enemies, e ∈ r.enemies ∨ inInterior r e.pos) ∧
    (∀ (r : Room) (dl : Int) (s : RS) (r' : Room) (s' : RS),
      r.place_items dl s = .ok (r', s') →
      ∀ it ∈ r'.items, it ∈ r.items ∨ inInterior r it.pos) ∧
    (∀ (r : Room) (ai : Int) (s : RS) (r' : Room) (s' : RS),
      r.add_special_feature ai s = .ok (r', s') →
      3 ≤ r.width → 3 ≤ r.height →
      ∀ f ∈ r'.features, f ∈ r.features ∨ inInterior r f.pos) ∧
    (∀ (m : Mgr) (d : Dungeon) (s : RS) (d' : Dungeon) (s' : RS),
      m.apply_heat_modifiers d s = .ok (d', s') →
      (∀ room ∈ d.rooms, room.room_type = "boss" → 7 ≤ room.width ∧ 7 ≤ room.height) →
      (∀ e ∈ d'.enemies, (∃ e0 ∈ d.enemies, e0.pos = e.pos) ∨
        ∃ room ∈ d.rooms, inInterior room e.pos) ∧
      (∀ it ∈ d'.items, ∃ it0 ∈ d.items, it0.pos = it.pos)) := by
  refine ⟨?_, ?_, ?_, ?_⟩
  · intro r dl ai s r' s' h hb
    exact place_enemies_spec r dl ai s r' s' h hb
  · intro r dl s r' s' h
    exact place_items_spec r dl s r' s' h
  · intro r ai s r' s' h hw hh
    exact add_special_feature_spec r ai s r' s' h hw hh
  · intro m d s d' s' h hboss
    exact ⟨(applyModsLoop_spec _ d s d' s' h hboss).2.1,
      (applyModsLoop_spec _ d s d' s' h hboss).2.2⟩

/-- Witness for C9 at a concrete input: a 5×5 normal room receives one
enemy, placed at the interior cell (2,2). -/
theorem c9_witness :
    Room.place_enemies c9room 1 0 [1, 0, 0, 0] =
      Except.ok ({ c9room with enemies := [⟨"normal", (2, 2), 1⟩] }, []) ∧
    (∀ e ∈ ({ c9room with enemies := [⟨"normal", (2, 2), 1⟩] } : Room).enemies,
      e ∈ c9room.enemies ∨ inInterior c9room e.pos) :=
  ⟨rfl, c9_theorem.1 c9room 1 0 [1, 0, 0, 0] _ [] rfl
    (fun hb => absurd hb (by decide))⟩

theorem create_corridor_fields (d : Dungeon) (p1 p2 : Cell) (s : RS) (d' : Dungeon) (s' : RS)
    (h : d.create_corridor p1 p2 s = .ok (d', s')) :
    d' = { d with grid := d'.grid, objects := d'.objects } := by
  unfold Dungeon.create_corridor at h
  rcases ho : rand100 s with e | po
  · simp only [bind_run, ho] at h
    exact absurd h (by simp)
  · obtain ⟨ov, s1⟩ := po
    simp only [bind_run, ho] at h
    rcases hg : corridorCarve d.grid p1 p2 ov with e | g
    · simp only [bind_run, liftE_run, hg, Except.map] at h
      exact absurd h (by simp)
    · simp only [bind_run, liftE_run, hg, Except.map] at h
      rcases hr : rand100 s1 with e | pr
      · simp only [hr] at h
        exact absurd h (by simp)
      · obtain ⟨dv, s3⟩ := pr
        simp only [hr] at h
        by_cases hlt : dv < 20
        · rw [if_pos hlt] at h
          split at h
          · rcases hds : doorScan d g p1.1 p1.2 [(0, 1), (1, 0), (0, -1), (-1, 0)] with e | gd
            · simp only [bind_run, liftE_run, hds, Except.map] at h
              exact absurd h (by simp)
            · simp only [bind_run, liftE_run, hds, Except.map, pure_run,
                Except.ok.injEq, Prod.mk.injEq] at h
              rw [← h.1]
          · rw [pure_run] at h
            simp only [Except.ok.injEq, Prod.mk.injEq] at h
            rw [← h.1]
        · rw [if_neg hlt, pure_run] at h
          simp only [Except.ok.injEq, Prod.mk.injEq] at h
          rw [← h.1]

theorem getD_set_cases {α : Type} [Inhabited α] (l : List α) (u i : Nat) (v : α) :
    (l.set u v).getD i default = l.getD i default ∨
    ((l.set u v).getD i default = v ∧ u = i) := by
  rcases eq_or_ne u i with rfl | hne
  · by_cases hlt : u < l.length
    · right
      rw [List.getD_eq_getElem?_getD, List.getElem?_set_self hlt]
      exact ⟨rfl, rfl⟩
    · left
      rw [List.set_eq_of_length_le (by omega)]
  · left
    rw [List.getD_eq_getElem?_getD, List.getElem?_set_ne hne, ← List.getD_eq_getElem?_getD]

theorem markConnected_idem (r : Room) : r.markConnected.markConnected = r.markConnected := rfl

theorem connectLoop_fields : ∀ (fuel : Nat) (d : Dungeon) (unconnected : List Nat)
    (s : RS) (d' : Dungeon) (s' : RS),
    connectLoop d unconnected fuel s = .ok (d', s') →
    d'.width = d.width ∧ d'.height = d.height ∧ d'.entrance = d.entrance ∧
    d'.exit = d.exit ∧ d'.player_level = d.player_level ∧ d'.area_index = d.area_index ∧
    d'.rooms.length = d.rooms.length ∧
    (∀ i, d'.rooms.getD i default = d.rooms.getD i default ∨
      d'.rooms.getD i default = (d.rooms.getD i default).markConnected) := by
  intro fuel
  induction fuel with
  | zero =>
    intro d unconnected s d' s' h
    unfold connectLoop at h
    split at h
    · rw [pure_run] at h
      simp only [Except.ok.injEq, Prod.mk.injEq] at h
      rw [← h.1]
      exact ⟨rfl, rfl, rfl, rfl, rfl, rfl, rfl, fun i => Or.inl rfl⟩
    · rw [mthrow_run] at h
      exact absurd h (by simp)
  | succ fuel ih =>
    intro d unconnected s d' s' h
    unfold connectLoop at h
    split at h
    · rw [pure_run] at h
      simp only [Except.ok.injEq, Prod.mk.injEq] at h
      rw [← h.1]
      exact ⟨rfl, rfl, rfl, rfl, rfl, rfl, rfl, fun i => Or.inl rfl⟩
    · rcases hcp : closestPair d.rooms unconnected with _ | uc
      · simp only [hcp, mthrow_run] at h
        exact absurd h (by simp)
      · simp only [hcp] at h
        rcases hc : d.create_corridor (d.rooms.getD uc.1 default).center
            (d.rooms.getD uc.2 default).center s with e | pc
        · simp only [bind_run, hc] at h
          exact absurd h (by simp)
        · obtain ⟨d1, s1⟩ := pc
          simp only [bind_run, hc] at h
          have hf1 := create_corridor_fields _ _ _ _ _ _ hc
          have hrooms1 : d1.rooms = d.rooms := by rw [hf1]
          obtain ⟨hw, hh, hent, hext, hpl, hai, hlen, hpt⟩ := ih _ _ _ _ _ h
          have hfields : ∀ (p : Dungeon → Int),
              p { d1 with rooms := d1.rooms.set uc.1 ((d1.rooms.getD uc.1 default).markConnected) } =
              p d1 → True := fun _ _ => trivial
          refine ⟨by rw [hw, hf1], by rw [hh, hf1], by rw [hent, hf1], by rw [hext, hf1],
            by rw [hpl, hf1], by rw [hai, hf1], ?_, ?_⟩
          · rw [hlen]
            simp only [List.length_set]
            rw [hrooms1]
            done
          · intro i
            have hmid := hpt i
            simp only at hmid
            rcases hmid with hsame | hmark <;>
              [rcases getD_set_cases d1.rooms uc.1 i
                ((d1.rooms.getD uc.1 default).markConnected) with hs | ⟨hs, hui⟩;
               rcases getD_set_cases d1.rooms uc.1 i
                ((d1.rooms.getD uc.1 default).markConnected) with hs | ⟨hs, hui⟩]
            · rw [hsame, hs, hrooms1]
              exact Or.inl rfl
            · subst hui
              rw [hsame, hs, hrooms1]
              exact Or.inr rfl
            · rw [hmark, hs, hrooms1]
              exact Or.inr rfl
            · subst hui
              rw [hmark, hs, hrooms1, markConnected_idem]
              exact Or.inr rfl

theorem connect_rooms_fields (d : Dungeon) (s : RS) (d' : Dungeon) (s' : RS)
    (h : d.connect_rooms s = .ok (d', s')) :
    d'.width = d.width ∧ d'.height = d.height ∧ d'.entrance = d.entrance ∧
    d'.exit = d.exit ∧ d'.player_level = d.player_level ∧ d'.area_index = d.area_index ∧
    d'.rooms.length = d.rooms.length ∧
    (∀ i, d'.rooms.getD i default = d.rooms.getD i default ∨
      d'.rooms.getD i default = (d.rooms.getD i default).markConnected) := by
  unfold Dungeon.connect_rooms at h
  have hmain : ∀ (k : Nat),
      (connectLoop
        { d with rooms := d.rooms.set k ((d.rooms.getD k default).markConnected) }
        (List.filter
          (fun i => !((d.rooms.set k ((d.rooms.getD k default).markConnected)).getD i
            default).connected)
          (List.range (d.rooms.set k ((d.rooms.getD k default).markConnected)).length))
        (List.filter
          (fun i => !((d.rooms.set k ((d.rooms.getD k default).markConnected)).getD i
            default).connected)
          (List.range (d.rooms.set k ((d.rooms.getD k default).markConnected)).length)).length
        s = .ok (d', s')) →
      d'.width = d.width ∧ d'.height = d.height ∧ d'.entrance = d.entrance ∧
      d'.exit = d.exit ∧ d'.player_level = d.player_level ∧ d'.area_index = d.area_index ∧
      d'.rooms.length = d.rooms.length ∧
      (∀ i, d'.rooms.getD i default = d.rooms.getD i default ∨
        d'.rooms.getD i default = (d.rooms.getD i default).markConnected) := by
    intro k hloop
    obtain ⟨hw, hh, hent, hext, hpl, hai, hlen, hpt⟩ := connectLoop_fields _ _ _ _ _ _ hloop
    refine ⟨hw, hh, hent, hext, hpl, hai, by rw [hlen]; simp [List.length_set], fun i => ?_⟩
    have := hpt i
    simp only at this
    rcases this with hsame | hmark <;>
      [rcases getD_set_cases d.rooms k i ((d.rooms.getD k default).markConnected)
        with hs | ⟨hs, hui⟩;
       rcases getD_set_cases d.rooms k i ((d.rooms.getD k default).markConnected)
        with hs | ⟨hs, hui⟩]
    · rw [hsame, hs]
      exact Or.inl rfl
    · subst hui
      rw [hsame, hs]
      exact Or.inr rfl
    · rw [hmark, hs]
      exact Or.inr rfl
    · subst hui
      rw [hmark, hs, markConnected_idem]
      exact Or.inr rfl
  rcases hfi : d.rooms.findIdx? (fun r => r.room_type == "entrance") with _ | k
  · simp only [hfi] at h
    split at h
    · simp only [bind_run, mthrow_run] at h
      exact absurd h (by simp)
    · simp only [bind_run, pure_run] at h
      exact hmain 0 h
  · simp only [hfi, bind_run, pure_run] at h
    exact hmain k h

theorem Room.intersects_shape (a b o : Room) (hx : a.x = b.x) (hy : a.y = b.y)
    (hw : a.width = b.width) (hh : a.height = b.height) :
    a.intersects o = b.intersects o := by
  unfold Room.intersects
  rw [hx, hy, hw, hh]

theorem Room.center_shape (a b : Room) (hx : a.x = b.x) (hy : a.y = b.y)
    (hw : a.width = b.width) (hh : a.height = b.height) :
    a.center = b.center := by
  unfold Room.center
  rw [hx, hy, hw, hh]

theorem place_enemies_fields (r : Room) (dl ai : Int) (s : RS) (r' : Room) (s' : RS)
    (h : r.place_enemies dl ai s = .ok (r', s')) :
    r' = { r with enemies := r'.enemies } := by
  unfold Room.place_enemies at h
  split at h
  · rw [pure_run] at h
    simp only [Except.ok.injEq, Prod.mk.injEq] at h
    rw [← h.1]
  · simp only [bind_run] at h
    split at h
    · exact (placeEnemiesLoop_spec _ _ _ _ _ _ h).1
    · exact absurd h (by simp)

theorem place_items_fields (r : Room) (dl : Int) (s : RS) (r' : Room) (s' : RS)
    (h : r.place_items dl s = .ok (r', s')) :
    r' = { r with items := r'.items } := by
  unfold Room.place_items at h
  rcases hr : rand100 s with e | pr
  · simp only [bind_run, hr] at h
    exact absurd h (by simp)
  · obtain ⟨rv, s1⟩ := pr
    simp only [bind_run, hr] at h
    by_cases hroll : rv < (if r.room_type = "boss" then 100
        else if r.room_type = "special" then 60 else 30)
    · rw [if_pos hroll] at h
      rcases hx : interiorDraw r.x r.width s1 with e | px
      · simp only [bind_run, hx] at h
        exact absurd h (by simp)
      · obtain ⟨xv, s2⟩ := px
        simp only [bind_run, hx] at h
        rcases hy : interiorDraw r.y r.height s2 with e | py
        · simp only [hy] at h
          exact absurd h (by simp)
        · obtain ⟨yv, s3⟩ := py
          simp only [hy] at h
          rcases hrr : rand100 s3 with e | prr
          · simp only [hrr] at h
            exact absurd h (by simp)
          · obtain ⟨rrv, s4⟩ := prr
            simp only [hrr, pure_run, Except.ok.injEq, Prod.mk.injEq] at h
            rw [← h.1]
    · rw [if_neg hroll, pure_run] at h
      simp only [Except.ok.injEq, Prod.mk.injEq] at h
      rw [← h.1]

theorem add_special_feature_fields (r : Room) (ai : Int) (s : RS) (r' : Room) (s' : RS)
    (h : r.add_special_feature ai s = .ok (r', s')) :
    r' = { r with features := r'.features } := by
  unfold Room.add_special_feature at h
  split at h
  · rcases hc : randchoice ["altar", "shrine", "fountain", "statue", "library"] s
        with e | pc
    · simp only [bind_run, hc] at h
      exact absurd h (by simp)
    · obtain ⟨cv, s1⟩ := pc
      simp only [bind_run, hc, pure_run, Except.ok.injEq, Prod.mk.injEq] at h
      rw [← h.1]
  · rw [pure_run] at h
    simp only [Except.ok.injEq, Prod.mk.injEq] at h
    rw [← h.1]

theorem populateNewRoom_fields (d : Dungeon) (nr : Room) (s : RS) (r' : Room) (s' : RS)
    (h : populateNewRoom d nr s = .ok (r', s')) :
    r'.x = nr.x ∧ r'.y = nr.y ∧ r'.width = nr.width ∧ r'.height = nr.height ∧
    r'.room_type = nr.room_type := by
  unfold populateNewRoom at h
  split at h
  · rcases hm : rand100 s with e | pm
    · simp only [bind_run, hm] at h
      exact absurd h (by simp)
    · obtain ⟨mv, s1⟩ := pm
      simp only [bind_run, hm] at h
      have tail : ∀ (r1 : Room) (s2 : RS),
          ((do
            let r2 ← r1.place_items d.player_level
            if nr.room_type = "special" then r2.add_special_feature d.area_index
            else pure r2) s2 = Except.ok (r', s')) →
          r'.x = r1.x ∧ r'.y = r1.y ∧ r'.width = r1.width ∧ r'.height = r1.height ∧
          r'.room_type = r1.room_type := by
        intro r1 s2 ht
        rcases hi : r1.place_items d.player_level s2 with e | pi
        · simp only [bind_run, hi] at ht
          exact absurd ht (by simp)
        · obtain ⟨r2, s3⟩ := pi
          simp only [bind_run, hi] at ht
          have hr2 := place_items_fields _ _ _ _ _ hi
          split at ht
          · have hr3 := add_special_feature_fields _ _ _ _ _ ht
            rw [hr3, hr2]
            exact ⟨rfl, rfl, rfl, rfl, rfl⟩
          · rw [pure_run] at ht
            simp only [Except.ok.injEq, Prod.mk.injEq] at ht
            rw [← ht.1, hr2]
            exact ⟨rfl, rfl, rfl, rfl, rfl⟩
      by_cases hlt : mv < 80
      · rw [if_pos hlt] at h
        rcases he : nr.place_enemies d.player_level d.area_index s1 with e | pe
        · simp only [bind_run, he] at h
          exact absurd h (by simp)
        · obtain ⟨r1, s2⟩ := pe
          simp only [bind_run, he] at h
          have hr1 := place_enemies_fields _ _ _ _ _ _ he
          obtain ⟨e1, e2, e3, e4, e5⟩ := tail r1 s2 h
          rw [hr1] at e1 e2 e3 e4 e5
          exact ⟨e1, e2, e3, e4, e5⟩
      · rw [if_neg hlt] at h
        simp only [bind_run, pure_run] at h
        exact tail nr s1 h
  · rw [pure_run] at h
    simp only [Except.ok.injEq, Prod.mk.injEq] at h
    rw [← h.1]
    exact ⟨rfl, rfl, rfl, rfl, rfl⟩

theorem roomReject_false (rooms : List Room) (nr : Room) (md : Int)
    (h : roomReject rooms nr md = false) :
    ∀ room ∈ rooms, nr.intersects room = false ∧
      (0 < md → md ^ 2 ≤ distSq nr.center room.center) := by
  intro room hmem
  unfold roomReject at h
  rw [List.any_eq_false] at h
  have hr := h room hmem
  simp only [Bool.not_eq_true, Bool.or_eq_false_iff, Bool.and_eq_false_iff,
    decide_eq_false_iff_not, not_lt] at hr
  refine ⟨hr.1, fun hmd => ?_⟩
  rcases hr.2 with hc | hc
  · exact absurd hmd (not_lt.mpr hc)
  · exact hc

theorem addRoomAttempts_spec : ∀ (n : Nat) (d : Dungeon) (md : Int) (rt : String)
    (w hgt : Int) (s : RS) (r' : Room) (d2 : Dungeon) (s' : RS),
    addRoomAttempts d md rt w hgt n s = .ok (some (r', d2), s') →
    d2 = { d with grid := d2.grid, rooms := d.rooms ++ [r'] } ∧
    ∀ room ∈ d.rooms, 0 < md → md ^ 2 ≤ distSq r'.center room.center := by
  intro n
  induction n with
  | zero =>
    intro d md rt w hgt s r' d2 s' hh
    unfold addRoomAttempts at hh
    rw [pure_run] at hh
    exact absurd hh (by simp)
  | succ n ih =>
    intro d md rt w hgt s r' d2 s' hh
    unfold addRoomAttempts at hh
    rcases hx : randint 1 (d.width - w - 1) s with e | ⟨xv, s1⟩
    · simp only [bind_run, hx] at hh
      exact absurd hh (by simp)
    · simp only [bind_run, hx] at hh
      rcases hy : randint 1 (d.height - hgt - 1) s1 with e | ⟨yv, s2⟩
      · simp only [hy] at hh
        exact absurd hh (by simp)
      · simp only [hy] at hh
        rcases Bool.eq_false_or_eq_true (roomReject d.rooms { x := xv, y := yv, width := w, height := hgt, room_type := rt } md) with hrj | hrj
        · rw [if_pos (by simp [hrj])] at hh
          exact ih d md rt w hgt s2 r' d2 s' hh
        · rw [if_neg (by simp [hrj])] at hh
          rcases hf : fillRect d.grid xv yv w hgt Tile.floor with e | g
          · simp only [bind_run, liftE_run, hf, Except.map] at hh
            exact absurd hh (by simp)
          · simp only [bind_run, liftE_run, hf, Except.map] at hh
            rcases hp : populateNewRoom { d with grid := g } { x := xv, y := yv, width := w, height := hgt, room_type := rt } s2 with e | ⟨rp, s3⟩
            · simp only [hp] at hh
              exact absurd hh (by simp)
            · simp only [hp, pure_run] at hh
              simp only [Except.ok.injEq, Prod.mk.injEq, Option.some.injEq] at hh
              obtain ⟨⟨hrp, hd2⟩, hs3⟩ := hh
              obtain ⟨e1, e2, e3, e4, e5⟩ := populateNewRoom_fields _ _ _ _ _ hp
              have hcen : rp.center = Room.center { x := xv, y := yv, width := w, height := hgt, room_type := rt } := Room.center_shape _ _ e1 e2 e3 e4
              subst hrp hd2
              refine ⟨rfl, fun room hmem hmd => ?_⟩
              have := (roomReject_false _ _ _ hrj room hmem).2 hmd
              rw [hcen]
              exact this

theorem addRoomCorners_spec : ∀ (cs : List (Int × Int)) (d : Dungeon) (rt : String)
    (r' : Room) (d2 : Dungeon),
    addRoomCorners d rt cs = .ok (some (r', d2)) →
    d2 = { d with grid := d2.grid, rooms := d.rooms ++ [r'] } ∧
    r'.width = 5 ∧ r'.height = 5 ∧ r'.room_type = rt ∧ (r'.x, r'.y) ∈ cs := by
  intro cs
  induction cs with
  | nil =>
    intro d rt r' d2 hh
    unfold addRoomCorners at hh
    exact absurd hh (by simp)
  | cons c rest ih =>
    intro d rt r' d2 hh
    obtain ⟨cx, cy⟩ := c
    unfold addRoomCorners at hh
    split at hh
    · simp only [] at hh
      split at hh
      · obtain ⟨h1, h2, h3, h4, h5⟩ := ih d rt r' d2 hh
        exact ⟨h1, h2, h3, h4, List.mem_cons_of_mem _ h5⟩
      · simp only [Except.ok.injEq, Option.some.injEq, Prod.mk.injEq] at hh
        obtain ⟨hr, hd⟩ := hh
        subst hr hd
        exact ⟨rfl, rfl, rfl, rfl, List.mem_cons_self _ _⟩
    · simp only [] at hh
      split at hh
      · obtain ⟨h1, h2, h3, h4, h5⟩ := ih d rt r' d2 hh
        exact ⟨h1, h2, h3, h4, List.mem_cons_of_mem _ h5⟩
      · exact absurd hh (by simp)

theorem addRoomForced_spec (d : Dungeon) (rt : String) (r' : Room) (d2 : Dungeon)
    (h : addRoomForced d rt = .ok (r', d2)) :
    d2 = { d with grid := d2.grid, rooms := d.rooms ++ [r'] } ∧
    r'.width = 5 ∧ r'.height = 5 ∧ r'.room_type = rt ∧
    r'.x = d.width / 2 - 2 ∧ r'.y = d.height / 2 - 2 := by
  unfold addRoomForced at h
  rcases hf : fillRect d.grid (d.width / 2 - 2) (d.height / 2 - 2) 5 5 Tile.floor
      with e | g
  · simp only [hf] at h
    exact absurd h (by simp)
  · simp only [hf] at h
    simp only [Except.ok.injEq, Prod.mk.injEq] at h
    obtain ⟨hr, hd⟩ := h
    subst hr hd
    exact ⟨rfl, rfl, rfl, rfl, rfl, rfl⟩

theorem add_room_spec (d : Dungeon) (md : Int) (rt : String) (s : RS)
    (r' : Room) (d2 : Dungeon) (s' : RS)
    (h : d.add_room md rt s = .ok ((r', d2), s')) :
    d2 = { d with grid := d2.grid, rooms := d.rooms ++ [r'] } ∧
    ((∀ room ∈ d.rooms, 0 < md → md ^ 2 ≤ distSq r'.center room.center) ∨
     (r'.width = 5 ∧ r'.height = 5 ∧
      (r'.x, r'.y) ∈ [((1 : Int), (1 : Int)), (1, d.height - 6), (d.width - 6, 1),
        (d.width - 6, d.height - 6), (d.width / 2 - 2, d.height / 2 - 2)])) := by
  unfold Dungeon.add_room at h
  have tail : ∀ (wv hv : Int) (s2 : RS),
      ((do
        let res ← addRoomAttempts d md rt wv hv 100
        match res with
        | some rd => pure rd
        | none => do
          let cres ← liftE (addRoomCorners d rt
            [((1 : Int), (1 : Int)), (1, d.height - 6), (d.width - 6, 1),
             (d.width - 6, d.height - 6)])
          match cres with
          | some rd => pure rd
          | none => liftE (addRoomForced d rt)) s2 = .ok ((r', d2), s')) →
      d2 = { d with grid := d2.grid, rooms := d.rooms ++ [r'] } ∧
      ((∀ room ∈ d.rooms, 0 < md → md ^ 2 ≤ distSq r'.center room.center) ∨
       (r'.width = 5 ∧ r'.height = 5 ∧
        (r'.x, r'.y) ∈ [((1 : Int), (1 : Int)), (1, d.height - 6), (d.width - 6, 1),
          (d.width - 6, d.height - 6), (d.width / 2 - 2, d.height / 2 - 2)])) := by
    intro wv hv s2 ht
    rcases hA : addRoomAttempts d md rt wv hv 100 s2 with e | ⟨res, s3⟩
    · simp only [bind_run, hA] at ht
      exact absurd ht (by simp)
    · simp only [bind_run, hA] at ht
      rcases res with _ | rd
      · rcases hC : addRoomCorners d rt
            [((1 : Int), (1 : Int)), (1, d.height - 6), (d.width - 6, 1),
             (d.width - 6, d.height - 6)] with e | cres
        · simp only [bind_run, liftE_run, hC, Except.map] at ht
          exact absurd ht (by simp)
        · simp only [bind_run, liftE_run, hC, Except.map] at ht
          rcases cres with _ | rd2
          · rcases hF : addRoomForced d rt with e | rd3
            · simp only [liftE_run, hF, Except.map] at ht
              exact absurd ht (by simp)
            · simp only [liftE_run, hF, Except.map] at ht
              simp only [Except.ok.injEq, Prod.mk.injEq] at ht
              obtain ⟨hrd, hs⟩ := ht
              obtain ⟨rda, rdb⟩ := rd3
              simp only [Prod.mk.injEq] at hrd
              obtain ⟨hra, hrb⟩ := hrd
              subst hra hrb
              obtain ⟨f1, f2, f3, f4, f5, f6⟩ := addRoomForced_spec _ _ _ _ hF
              exact ⟨f1, Or.inr ⟨f2, f3, by simp [f5, f6]⟩⟩
          · simp only [pure_run, Except.ok.injEq, Prod.mk.injEq] at ht
            obtain ⟨hrd, hs⟩ := ht
            obtain ⟨rda, rdb⟩ := rd2
            simp only [Prod.mk.injEq] at hrd
            obtain ⟨hra, hrb⟩ := hrd
            subst hra hrb
            obtain ⟨f1, f2, f3, f4, f5⟩ := addRoomCorners_spec _ _ _ _ _ hC
            refine ⟨f1, Or.inr ⟨f2, f3, ?_⟩⟩
            simp only [List.mem_cons, List.mem_singleton] at f5 ⊢
            tauto
      · simp only [pure_run, Except.ok.injEq, Prod.mk.injEq] at ht
        obtain ⟨hrd, hs⟩ := ht
        obtain ⟨rda, rdb⟩ := rd
        simp only [Prod.mk.injEq] at hrd
        obtain ⟨hra, hrb⟩ := hrd
        subst hra hrb
        obtain ⟨f1, f2⟩ := addRoomAttempts_spec _ _ _ _ _ _ _ _ _ _ hA
        exact ⟨f1, Or.inl f2⟩
  by_cases hrt : rt = "entrance" ∨ rt = "exit"
  · rw [if_pos hrt] at h
    rcases hw : randint 6 11 s with e | ⟨wv, s1⟩
    · simp only [bind_run, hw] at h
      exact absurd h (by simp)
    · simp only [bind_run, hw] at h
      rcases hh2 : randint 6 11 s1 with e | ⟨hv, s2⟩
      · simp only [hh2] at h
        exact absurd h (by simp)
      · simp only [hh2, pure_run] at h
        exact tail wv hv s2 h
  · rw [if_neg hrt] at h
    rcases hw : randint 5 10 s with e | ⟨wv, s1⟩
    · simp only [bind_run, hw] at h
      exact absurd h (by simp)
    · simp only [bind_run, hw] at h
      rcases hh2 : randint 5 10 s1 with e | ⟨hv, s2⟩
      · simp only [hh2] at h
        exact absurd h (by simp)
      · simp only [hh2, pure_run] at h
        exact tail wv hv s2 h

theorem middleRooms_spec : ∀ (n : Nat) (d : Dungeon) (s : RS) (d' : Dungeon) (s' : RS),
    middleRooms d n s = .ok (d', s') →
    ∃ tl, d' = { d with grid := d'.grid, rooms := d.rooms ++ tl } := by
  intro n
  induction n with
  | zero =>
    intro d s d' s' hh
    unfold middleRooms at hh
    rw [pure_run] at hh
    simp only [Except.ok.injEq, Prod.mk.injEq] at hh
    exact ⟨[], by rw [← hh.1]; simp⟩
  | succ n ih =>
    intro d s d' s' hh
    unfold middleRooms at hh
    rcases hr : rand100 s with e | ⟨roll, s1⟩
    · simp only [bind_run, hr] at hh
      exact absurd hh (by simp)
    · simp only [bind_run, hr] at hh
      rcases ha : d.add_room 0 (if roll < 20 then "special" else "normal") s1
          with e | ⟨rd, s2⟩
      · simp only [ha] at hh
        exact absurd hh (by simp)
      · simp only [ha] at hh
        obtain ⟨rda, rdb⟩ := rd
        obtain ⟨f1, _⟩ := add_room_spec _ _ _ _ _ _ _ ha
        obtain ⟨tl, htl⟩ := ih rdb s2 d' s' hh
        refine ⟨[rda] ++ tl, ?_⟩
        rw [htl, f1]
        simp

set_option maxHeartbeats 1000000 in
/-- **C7** (amended).  For every successfully generated non-final-area level
the entrance and exit centers are recorded, and either the exit room was
accepted by the distance test — so the squared center distance is at least
`(max(width,height) / 3)²` with *floored* division, which forces the two
centers apart whenever that floor is positive — or all 100 placement
attempts failed and the exit is a 5×5 fallback room at one of the four
corners or the grid center, with no distance guarantee. -/
theorem c7_theorem (d0 : Dungeon) (s : RS) (d' : Dungeon) (s' : RS)
    (hai : d0.area_index ≠ 6)
    (h : d0.generate s = .ok (d', s')) :
    ∃ entC exitC : Int × Int, d'.entrance = some entC ∧ d'.exit = some exitC ∧
      ((0 < (max d0.width d0.height) / 3 →
          ((max d0.width d0.height) / 3) ^ 2 ≤ distSq exitC entC ∧ exitC ≠ entC) ∨
       (∃ x y : Int, exitC = (x + 2, y + 2) ∧
         (x, y) ∈ [((1 : Int), (1 : Int)), (1, d0.height - 6), (d0.width - 6, 1),
           (d0.width - 6, d0.height - 6), (d0.width / 2 - 2, d0.height / 2 - 2)])) := by
  unfold Dungeon.generate at h
  simp only [] at h
  rw [if_neg hai] at h
  rcases hn : randint 8 12 s with e | ⟨nr, s1⟩
  · simp only [bind_run, hn] at h
    exact absurd h (by simp)
  · simp only [bind_run, hn] at h
    rcases hE : Dungeon.add_room { d0 with grid := List.replicate d0.height.toNat (List.replicate d0.width.toNat Tile.wall) } 0 "entrance" s1 with e | ⟨⟨entR, dE⟩, s2⟩
    · simp only [hE] at h
      exact absurd h (by simp)
    · simp only [hE] at h
      rcases hM : middleRooms { dE with entrance := some entR.center } (nr - 2).toNat s2 with e | ⟨dm, s3⟩
      · simp only [hM] at h
        exact absurd h (by simp)
      · simp only [hM] at h
        rcases hX : Dungeon.add_room dm ((max dm.width dm.height) / 3) "exit" s3 with e | ⟨⟨exitR, dX⟩, s4⟩
        · simp only [hX] at h
          exact absurd h (by simp)
        · simp only [hX] at h
          rcases hC : Dungeon.connect_rooms { dX with exit := some exitR.center } s4 with e | ⟨dc, s5⟩
          · simp only [hC] at h
            exact absurd h (by simp)
          · simp only [hC] at h
            obtain ⟨hcw, hch, hent, hext, _, _, _, _⟩ := connect_rooms_fields _ _ _ _ hC
            obtain ⟨f1E, _⟩ := add_room_spec _ _ _ _ _ _ _ hE
            obtain ⟨f1X, fdisj⟩ := add_room_spec _ _ _ _ _ _ _ hX
            obtain ⟨tl, hmEq⟩ := middleRooms_spec _ _ _ _ _ hM
            have hcent : dc.entrance = some entR.center := by
              rw [hent, f1X, hmEq]
            have hcext : dc.exit = some exitR.center := by
              rw [hext]
            have hW : dm.width = d0.width := by
              rw [hmEq, f1E]
            have hH : dm.height = d0.height := by
              rw [hmEq, f1E]
            have hmemE : entR ∈ dm.rooms := by
              rw [hmEq, f1E]
              simp
            simp only [hcent] at h
            rcases hG1 : gridSet dc.grid entR.center.2 entR.center.1 Tile.stairsUp with e | g1
            · simp only [bind_run, liftE_run, hG1, Except.map] at h
              exact absurd h (by simp)
            · simp only [bind_run, liftE_run, hG1, Except.map] at h
              simp only [hcext] at h
              rcases hG2 : gridSet g1 exitR.center.2 exitR.center.1 Tile.stairsDown with e | g2
              · simp only [bind_run, liftE_run, hG2, Except.map] at h
                exact absurd h (by simp)
              · simp only [bind_run, liftE_run, hG2, Except.map, pure_run] at h
                simp only [Except.ok.injEq, Prod.mk.injEq] at h
                obtain ⟨hd', hs5⟩ := h
                refine ⟨entR.center, exitR.center, ?_, ?_, ?_⟩
                · rw [← hd']
                  rfl
                · rw [← hd']
                  rfl
                · rcases fdisj with hfar | hfall
                  · left
                    intro hmd
                    have hmd' : 0 < (max dm.width dm.height) / 3 := by
                      rw [hW, hH]
                      exact hmd
                    have hge := hfar entR hmemE hmd'
                    rw [hW, hH] at hge
                    refine ⟨hge, fun heq => ?_⟩
                    rw [heq] at hge
                    have hz : distSq entR.center entR.center = 0 := by
                      simp [distSq]
                    rw [hz] at hge
                    have : 0 < ((max d0.width d0.height) / 3) ^ 2 := pow_pos hmd 2
                    omega
                  · right
                    obtain ⟨hw5, hh5, hmem5⟩ := hfall
                    refine ⟨exitR.x, exitR.y, ?_, ?_⟩
                    · unfold Room.center
                      rw [hw5, hh5]
                      norm_num
                    · rw [← hW, ← hH]
                      exact hmem5

set_option maxRecDepth 8000 in
/-- Witness for C7: the 22×22 generation steered by `oracleC7` succeeds, so
the amended theorem applies to it with both hypotheses discharged
concretely. -/
theorem c7_witness :
    ∃ entC exitC : Int × Int, c7lvl.entrance = some entC ∧ c7lvl.exit = some exitC ∧
      ((0 < (max (mkDungeon 22 22 1 0).width (mkDungeon 22 22 1 0).height) / 3 →
          ((max (mkDungeon 22 22 1 0).width (mkDungeon 22 22 1 0).height) / 3) ^ 2 ≤
            distSq exitC entC ∧ exitC ≠ entC) ∨
       (∃ x y : Int, exitC = (x + 2, y + 2) ∧
         (x, y) ∈ [((1 : Int), (1 : Int)), (1, (mkDungeon 22 22 1 0).height - 6),
           ((mkDungeon 22 22 1 0).width - 6, 1),
           ((mkDungeon 22 22 1 0).width - 6, (mkDungeon 22 22 1 0).height - 6),
           ((mkDungeon 22 22 1 0).width / 2 - 2, (mkDungeon 22 22 1 0).height / 2 - 2)])) :=
  c7_theorem (mkDungeon 22 22 1 0) oracleC7 c7lvl [] (by decide) rfl
